import Mathlib

/-!
Verification development for the Multi-Vehicle-Routing backend.

Python source files are embedded shallowly: floats that only ever hold
exact decimal/integer data are modelled as `ℚ` (or `ℤ` where the code and
type annotations guarantee integers), genuinely irrational computations
(`math.hypot`, trigonometry) are idealised over `ℝ`, Python `None` becomes
`Option`, Python `raise` becomes `Except.error`, and Python dicts that are
used in insertion order become association lists in insertion order.
Each definition's doc comment names the source function it embeds.
-/

/-- Python 3 `round()` to an integer: round-half-to-even (banker's rounding),
used for `int(round(x))` on rationals. -/
def pyRound (q : ℚ) : ℤ :=
  if q - ⌊q⌋ < 1/2 then ⌊q⌋
  else if 1/2 < q - ⌊q⌋ then ⌊q⌋ + 1
  else if ⌊q⌋ % 2 = 0 then ⌊q⌋ else ⌊q⌋ + 1

/-- Python `int()` on a rational: truncation toward zero. -/
def ratTrunc (q : ℚ) : ℤ := if 0 ≤ q then ⌊q⌋ else -⌊-q⌋

namespace TTLCache

/-- The cache store of `core/cache.py` (`TTLCache._store`): a Python dict
`key -> (expiry, value)` in insertion order, modelled as an association list
in insertion order.  Cached Python values may be `None`, hence `Option ℕ`. -/
def Store := List (String × ℚ × Option ℕ)

instance : DecidableEq Store := by unfold Store; infer_instance

/-- Dict lookup `self._store.get(key)`. -/
def storeFind : Store → String → Option (ℚ × Option ℕ)
  | [], _ => none
  | (k, e, v) :: rest, key => if k = key then some (e, v) else storeFind rest key

/-- Dict removal `self._store.pop(key, None)`. -/
def storeErase (s : Store) (key : String) : Store :=
  s.filter (fun kv => kv.1 ≠ key)

/-- Dict assignment `self._store[key] = (exp, val)`: replaces in place when the
key exists (keeping its position), appends otherwise. -/
def storeAssign : Store → String → ℚ → Option ℕ → Store
  | [], key, e, v => [(key, e, v)]
  | (k, e0, v0) :: rest, key, e, v =>
    if k = key then (key, e, v) :: rest else (k, e0, v0) :: storeAssign rest key e v

/-- `TTLCache.get` (core/cache.py lines 12-20).  Returns the Python return value
together with the store after the opportunistic removal of an expired entry.
A stored Python `None` value is returned as `none`, exactly like a miss. -/
def get (store : Store) (now : ℚ) (key : String) : Option ℕ × Store :=
  match storeFind store key with
  | none => (none, store)
  | some (exp, val) => if exp < now then (none, storeErase store key) else (val, store)

/-- `TTLCache.set` (core/cache.py lines 22-27): FIFO-evicts the oldest entry when
full, then writes `(now + ttl, val)`. -/
def set (ttl : ℚ) (maxsize : ℕ) (store : Store) (now : ℚ) (key : String)
    (val : Option ℕ) : Store :=
  let store := if maxsize ≤ store.length then store.tail else store
  storeAssign store key (now + ttl) val

/-- `TTLCache.aget_or_set` (core/cache.py lines 29-35) for a builder whose
result is `builderVal`: returns the delivered value, whether the builder was
awaited, and the resulting store. -/
def aget_or_set (ttl : ℚ) (maxsize : ℕ) (store : Store) (now : ℚ) (key : String)
    (builderVal : Option ℕ) : Option ℕ × Bool × Store :=
  let hit := get store now key
  match hit.1 with
  | some v => (some v, false, hit.2)
  | none => (builderVal, true, set ttl maxsize hit.2 now key builderVal)

/-- Phase of one coroutine running `aget_or_set`: before its synchronous
`self.get` call, suspended inside `await creator()`, or returned. -/
inductive TaskPhase
  | start
  | waiting
  | done (v : Option ℕ)
deriving DecidableEq

/-- Two coroutines concurrently running `aget_or_set` on the same key under
asyncio's cooperative scheduler, plus the number of builder invocations. -/
structure ConcState where
  store : Store
  t0 : TaskPhase
  t1 : TaskPhase
  builderCalls : ℕ

/-- One cooperative step of a single coroutine executing `aget_or_set`
(core/cache.py lines 29-35).  From `start` it runs the synchronous
`self.get(key)`; on a miss it enters `await creator()` (this is the builder
invocation and the only suspension point).  From `waiting` the builder
completes with `builderVal`, the coroutine runs `self.set` and returns. -/
def taskStep (ttl : ℚ) (maxsize : ℕ) (now : ℚ) (key : String) (builderVal : Option ℕ)
    (ph : TaskPhase) (store : Store) (calls : ℕ) : TaskPhase × Store × ℕ :=
  match ph with
  | .start =>
    let hit := get store now key
    match hit.1 with
    | some v => (.done (some v), hit.2, calls)
    | none => (.waiting, hit.2, calls + 1)
  | .waiting => (.done builderVal, set ttl maxsize store now key builderVal, calls)
  | .done v => (.done v, store, calls)

/-- Scheduler step: runs one cooperative step of task 0 (`who = false`) or
task 1 (`who = true`), whose builders produce `b0` and `b1` respectively. -/
def schedStep (ttl : ℚ) (maxsize : ℕ) (now : ℚ) (key : String) (b0 b1 : Option ℕ)
    (s : ConcState) (who : Bool) : ConcState :=
  if who then
    let r := taskStep ttl maxsize now key b1 s.t1 s.store s.builderCalls
    { s with t1 := r.1, store := r.2.1, builderCalls := r.2.2 }
  else
    let r := taskStep ttl maxsize now key b0 s.t0 s.store s.builderCalls
    { s with t0 := r.1, store := r.2.1, builderCalls := r.2.2 }

/-- Runs a cooperative schedule (a list of task choices) from a state. -/
def runSched (ttl : ℚ) (maxsize : ℕ) (now : ℚ) (key : String) (b0 b1 : Option ℕ)
    (sched : List Bool) (s : ConcState) : ConcState :=
  sched.foldl (schedStep ttl maxsize now key b0 b1) s

end TTLCache

/-- C1: `TTLCache.aget_or_set` holds no lock around the miss window: under the
schedule in which both coroutines run their synchronous `get` (both missing,
because neither has stored yet) before either builder completes, the builder
is invoked twice, and when the two invocations return different values the two
callers receive different values.  This run evaluates the interleaving machine
on the empty cache with key `k`, ttl 60, maxsize 1000, builders returning 1
resp. 2, schedule task0-get, task1-get, task0-finish, task1-finish. -/
theorem aget_or_set_double_build :
    (TTLCache.runSched 60 1000 0 "k" (some 1) (some 2)
      [false, true, false, true] ⟨[], .start, .start, 0⟩).builderCalls = 2
    ∧ (TTLCache.runSched 60 1000 0 "k" (some 1) (some 2)
        [false, true, false, true] ⟨[], .start, .start, 0⟩).t0 = .done (some 1)
    ∧ (TTLCache.runSched 60 1000 0 "k" (some 1) (some 2)
        [false, true, false, true] ⟨[], .start, .start, 0⟩).t1 = .done (some 2) := by
  decide

/-- C10: a stored, unexpired `None` value is returned by `TTLCache.get` as the
miss marker `None` — exactly what `get` returns when the key is absent — and
therefore `aget_or_set` awaits the builder on that key on every call; if the
builder returns `None` again, the following call within the TTL still awaits
the builder, so a builder returning `None` is never effectively cached. -/
theorem cached_none_is_a_miss (k : String) (exp now now2 ttl : ℚ) (maxsize : ℕ)
    (b b2 : Option ℕ) (hexp : ¬ exp < now) (hmax : 2 ≤ maxsize)
    (hnow2 : ¬ now + ttl < now2) :
    let store : TTLCache.Store := [(k, exp, none)]
    (TTLCache.get store now k).1 = none
    ∧ (TTLCache.get [] now k).1 = none
    ∧ (TTLCache.aget_or_set ttl maxsize store now k b).2.1 = true
    ∧ (TTLCache.aget_or_set ttl maxsize
        (TTLCache.aget_or_set ttl maxsize store now k none).2.2 now2 k b2).2.1
        = true := by
  intro store
  have hfind : TTLCache.storeFind store k = some (exp, none) := by
    simp [TTLCache.storeFind, store]
  have hget1 : TTLCache.get store now k = (none, store) := by
    simp [TTLCache.get, hfind, hexp]
  have hlen : ¬ maxsize ≤ store.length := by
    simp only [store, List.length_cons, List.length_nil]
    omega
  have hset : TTLCache.set ttl maxsize store now k none = [(k, now + ttl, none)] := by
    simp [TTLCache.set, hlen, TTLCache.storeAssign]
  have hag1 : TTLCache.aget_or_set ttl maxsize store now k none
      = (none, true, [(k, now + ttl, none)]) := by
    simp [TTLCache.aget_or_set, hget1, hset]
  refine ⟨by simp [hget1], by simp [TTLCache.get, TTLCache.storeFind], ?_, ?_⟩
  · simp [TTLCache.aget_or_set, hget1]
  · rw [hag1]
    simp [TTLCache.aget_or_set, TTLCache.get, TTLCache.storeFind, hnow2]

/-- Witness for `cached_none_is_a_miss` at concrete inputs. -/
theorem cached_none_is_a_miss_witness :
    (¬ (60 : ℚ) < 0) ∧ (2 ≤ 1000) ∧ (¬ (0 : ℚ) + 60 < 30)
    ∧ (let store : TTLCache.Store := [("m", 60, none)]
       (TTLCache.get store 0 "m").1 = none
       ∧ (TTLCache.get [] 0 "m").1 = none
       ∧ (TTLCache.aget_or_set 60 1000 store 0 "m" (some 5)).2.1 = true
       ∧ (TTLCache.aget_or_set 60 1000
           (TTLCache.aget_or_set 60 1000 store 0 "m" none).2.2 30 "m" (some 7)).2.1
           = true) :=
  ⟨by norm_num, by norm_num, by norm_num,
   cached_none_is_a_miss "m" 60 0 30 60 1000 (some 5) (some 7)
     (by norm_num) (by norm_num) (by norm_num)⟩

/-- `MatrixResult` (models/distance_matrix.py): distances in kilometers,
durations in seconds; the unused optional `emissions`/`costs`/`coordinates`
fields are omitted.  Float entries are modelled as `ℚ`. -/
structure MatrixResult where
  distances : List (List ℚ)
  durations : Option (List (List ℚ)) := none
deriving DecidableEq

/-- `Vehicle` (models/fleet.py).  `end` is a Lean keyword, hence `end_`. -/
structure Vehicle where
  id : String
  capacity : Option (List ℤ) := none
  skills : Option (List String) := none
  start : Option ℤ := none
  end_ : Option ℤ := none
  time_window : Option (List ℤ) := none
  max_distance : Option ℚ := none
  max_duration : Option ℚ := none
  speed : Option ℚ := none
  emissions_per_km : Option ℚ := none
deriving DecidableEq

/-- `Route` (models/solvers.py).  `waypoint_ids` are decimal strings in the
source and are converted with `int()` before use; we model them as the
resulting numbers.  `metadata` is a Python dict, modelled as an association
list. -/
structure Route where
  vehicle_id : String
  waypoint_ids : List ℕ
  total_distance : Option ℚ := none
  total_duration : Option ℤ := none
  emissions : Option ℚ := none
  metadata : Option (List (String × ℚ)) := none
deriving DecidableEq

/-- `Routes` (models/solvers.py). -/
structure Routes where
  status : String := "success"
  message : Option String := none
  routes : List Route := []
deriving DecidableEq

/-- Python `table[a][b]` on a nested list (callers guarantee in-range access). -/
def matrixAt (t : List (List ℚ)) (a b : ℕ) : ℚ := (t.getD a []).getD b 0

/-- The consecutive index pairs `(idxs[i], idxs[i+1])` visited by the loop
`for i in range(len(idxs) - 1)` in services/metrics.py. -/
def consecPairs : List ℕ → List (ℕ × ℕ)
  | a :: b :: rest => (a, b) :: consecPairs (b :: rest)
  | _ => []

/-- Per-route body of `enrich_routes_with_metrics` (services/metrics.py lines
16-40).  `Vehicle` has no `cost_per_km` field, so the source's
`getattr(v, "cost_per_km", None)` is always `None` and the `cost` metadata
entry is never written; the `r.metadata = r.metadata or {}` assignment still
runs whenever a matching vehicle exists. -/
def enrichRoute (matrix : MatrixResult) (fleet : List Vehicle) (r : Route) : Route :=
  let pairs := consecPairs r.waypoint_ids
  let dist : ℚ := (pairs.map (fun p => matrixAt matrix.distances p.1 p.2)).sum
  let dur : Option ℚ := match matrix.durations with
    | none => none
    | some ds => some (pairs.map (fun p => matrixAt ds p.1 p.2)).sum
  let r := { r with total_distance := some dist, total_duration := dur.map ratTrunc }
  match fleet.find? (fun v => v.id == r.vehicle_id) with
  | none => r
  | some v =>
    let r := { r with metadata := some (r.metadata.getD []) }
    match v.emissions_per_km with
    | none => r
    | some e => { r with emissions := some (dist * e) }

/-- `enrich_routes_with_metrics` (services/metrics.py): the `depot_index` and
`cost_weight_km` parameters are unused by the body and omitted. -/
def enrich_routes_with_metrics (routes : Routes) (matrix : MatrixResult)
    (fleet : List Vehicle) : Routes :=
  { routes with routes := routes.routes.map (enrichRoute matrix fleet) }

/-- The consecutive-pair loop visits exactly `zip l l.tail`. -/
theorem consecPairs_eq_zip : ∀ l : List ℕ, consecPairs l = l.zip l.tail
  | [] => rfl
  | [_] => rfl
  | a :: b :: rest => by
    simpa [consecPairs, List.zip_cons_cons] using consecPairs_eq_zip (b :: rest)

/-- C2 (amended): for every route, after the Metrics Enricher the route's
`total_distance` is the sum of `matrix.distances[a][b]` over consecutive
waypoint pairs and its `total_duration` is the `int()` of the corresponding
durations sum when a durations table is present and null otherwise, with
`vehicle_id` and `waypoint_ids` untouched.  When no vehicle in the fleet
matches the route's id, `metadata` and `emissions` are untouched too; when a
matching vehicle exists, `metadata` is not left untouched — a null metadata
becomes the empty dict — and `emissions` becomes `total_distance` times the
vehicle's per-km factor when it has one (untouched when it has none). -/
theorem enrich_routes_with_metrics_spec (matrix : MatrixResult) (fleet : List Vehicle)
    (routes : Routes) (r : Route) :
    (enrichRoute matrix fleet r).total_distance
        = some ((r.waypoint_ids.zip r.waypoint_ids.tail).map
            (fun p => matrixAt matrix.distances p.1 p.2)).sum
    ∧ (enrichRoute matrix fleet r).total_duration
        = matrix.durations.map (fun ds =>
            ratTrunc ((r.waypoint_ids.zip r.waypoint_ids.tail).map
              (fun p => matrixAt ds p.1 p.2)).sum)
    ∧ (enrichRoute matrix fleet r).vehicle_id = r.vehicle_id
    ∧ (enrichRoute matrix fleet r).waypoint_ids = r.waypoint_ids
    ∧ (fleet.find? (fun v => v.id == r.vehicle_id) = none →
        (enrichRoute matrix fleet r).metadata = r.metadata
        ∧ (enrichRoute matrix fleet r).emissions = r.emissions)
    ∧ (∀ v, fleet.find? (fun v2 => v2.id == r.vehicle_id) = some v →
        (enrichRoute matrix fleet r).metadata = some (r.metadata.getD [])
        ∧ (v.emissions_per_km = none →
            (enrichRoute matrix fleet r).emissions = r.emissions)
        ∧ (∀ e, v.emissions_per_km = some e →
            (enrichRoute matrix fleet r).emissions
              = some (((r.waypoint_ids.zip r.waypoint_ids.tail).map
                  (fun p => matrixAt matrix.distances p.1 p.2)).sum * e)))
    ∧ (enrich_routes_with_metrics routes matrix fleet).routes
        = routes.routes.map (enrichRoute matrix fleet)
    ∧ (enrich_routes_with_metrics routes matrix fleet).status = routes.status
    ∧ (enrich_routes_with_metrics routes matrix fleet).message = routes.message := by
  have hzip := consecPairs_eq_zip r.waypoint_ids
  rcases hfind : fleet.find? (fun v => v.id == r.vehicle_id) with _ | v0
  · refine ⟨?_, ?_, ?_, ?_, fun _ => ⟨?_, ?_⟩, ?_, rfl, rfl, rfl⟩
    · cases hds : matrix.durations <;> simp [enrichRoute, hfind, hds, hzip]
    · cases hds : matrix.durations <;> simp [enrichRoute, hfind, hds, hzip]
    · cases hds : matrix.durations <;> simp [enrichRoute, hfind, hds]
    · cases hds : matrix.durations <;> simp [enrichRoute, hfind, hds]
    · cases hds : matrix.durations <;> simp [enrichRoute, hfind, hds]
    · cases hds : matrix.durations <;> simp [enrichRoute, hfind, hds]
    · intro v hv
      rw [hfind] at hv
      exact absurd hv (by simp)
  · rcases hemi : v0.emissions_per_km with _ | e0
    · refine ⟨?_, ?_, ?_, ?_, ?_, ?_, rfl, rfl, rfl⟩
      · cases hds : matrix.durations <;> simp [enrichRoute, hfind, hemi, hds, hzip]
      · cases hds : matrix.durations <;> simp [enrichRoute, hfind, hemi, hds, hzip]
      · cases hds : matrix.durations <;> simp [enrichRoute, hfind, hemi, hds]
      · cases hds : matrix.durations <;> simp [enrichRoute, hfind, hemi, hds]
      · intro hv
        rw [hfind] at hv
        exact absurd hv (by simp)
      · intro v hv
        rw [hfind] at hv
        obtain rfl := Option.some_inj.mp hv
        refine ⟨?_, fun _ => ?_, fun e he => ?_⟩
        · cases hds : matrix.durations <;> simp [enrichRoute, hfind, hemi, hds]
        · cases hds : matrix.durations <;> simp [enrichRoute, hfind, hemi, hds]
        · rw [hemi] at he
          exact absurd he (by simp)
    · refine ⟨?_, ?_, ?_, ?_, ?_, ?_, rfl, rfl, rfl⟩
      · cases hds : matrix.durations <;> simp [enrichRoute, hfind, hemi, hds, hzip]
      · cases hds : matrix.durations <;> simp [enrichRoute, hfind, hemi, hds, hzip]
      · cases hds : matrix.durations <;> simp [enrichRoute, hfind, hemi, hds]
      · cases hds : matrix.durations <;> simp [enrichRoute, hfind, hemi, hds]
      · intro hv
        rw [hfind] at hv
        exact absurd hv (by simp)
      · intro v hv
        rw [hfind] at hv
        obtain rfl := Option.some_inj.mp hv
        refine ⟨?_, fun hno => ?_, fun e he => ?_⟩
        · cases hds : matrix.durations <;> simp [enrichRoute, hfind, hemi, hds]
        · rw [hemi] at hno
          exact absurd hno (by simp)
        · rw [hemi] at he
          obtain rfl := Option.some_inj.mp he
          cases hds : matrix.durations <;> simp [enrichRoute, hfind, hemi, hds, hzip]

/-- Witness for `enrich_routes_with_metrics_spec`: a route over a 2×2 matrix
with durations, whose matching vehicle carries an emissions factor, exercising
the matching-vehicle branch (metadata replacement and emissions product) and
the distance formula. -/
theorem enrich_routes_with_metrics_spec_witness :
    ([({ id := "v1", emissions_per_km := some 2 } : Vehicle)].find?
        (fun v2 => v2.id == ({ vehicle_id := "v1", waypoint_ids := [0, 1, 0] } : Route).vehicle_id)
      = some { id := "v1", emissions_per_km := some 2 })
    ∧ (({ id := "v1", emissions_per_km := some 2 } : Vehicle).emissions_per_km = some 2)
    ∧ (enrichRoute ⟨[[0, 5], [5, 0]], some [[0, 7], [7, 0]]⟩
        [{ id := "v1", emissions_per_km := some 2 }]
        { vehicle_id := "v1", waypoint_ids := [0, 1, 0] }).total_distance
        = some (([0, 1, 0].zip [1, 0]).map
            (fun p => matrixAt [[0, 5], [5, 0]] p.1 p.2)).sum
    ∧ (enrichRoute ⟨[[0, 5], [5, 0]], some [[0, 7], [7, 0]]⟩
        [{ id := "v1", emissions_per_km := some 2 }]
        { vehicle_id := "v1", waypoint_ids := [0, 1, 0] }).metadata = some []
    ∧ (enrichRoute ⟨[[0, 5], [5, 0]], some [[0, 7], [7, 0]]⟩
        [{ id := "v1", emissions_per_km := some 2 }]
        { vehicle_id := "v1", waypoint_ids := [0, 1, 0] }).emissions
        = some ((([0, 1, 0].zip [1, 0]).map
            (fun p => matrixAt [[0, 5], [5, 0]] p.1 p.2)).sum * 2) := by
  refine ⟨by decide, by decide, ?_, ?_, ?_⟩
  · exact (enrich_routes_with_metrics_spec ⟨[[0, 5], [5, 0]], some [[0, 7], [7, 0]]⟩
      [{ id := "v1", emissions_per_km := some 2 }] ⟨"success", none, []⟩
      { vehicle_id := "v1", waypoint_ids := [0, 1, 0] }).1
  · exact ((enrich_routes_with_metrics_spec ⟨[[0, 5], [5, 0]], some [[0, 7], [7, 0]]⟩
      [{ id := "v1", emissions_per_km := some 2 }] ⟨"success", none, []⟩
      { vehicle_id := "v1", waypoint_ids := [0, 1, 0] }).2.2.2.2.2.1
      { id := "v1", emissions_per_km := some 2 } (by decide)).1
  · exact (((enrich_routes_with_metrics_spec ⟨[[0, 5], [5, 0]], some [[0, 7], [7, 0]]⟩
      [{ id := "v1", emissions_per_km := some 2 }] ⟨"success", none, []⟩
      { vehicle_id := "v1", waypoint_ids := [0, 1, 0] }).2.2.2.2.2.1
      { id := "v1", emissions_per_km := some 2 } (by decide)).2.2) 2 (by decide)

/-- C2 counterexample: the Metrics Enricher does not leave "other route fields"
untouched — a route whose `metadata` is null and whose vehicle id occurs in
the fleet gets its `metadata` replaced by the empty dict. -/
theorem enrich_routes_with_metrics_touches_metadata :
    (enrichRoute ⟨[[0]], none⟩ [{ id := "v1" }]
        { vehicle_id := "v1", waypoint_ids := [0] }).metadata
      ≠ ({ vehicle_id := "v1", waypoint_ids := [0] } : Route).metadata := by
  decide

/-- `_tw_pair_to_seconds` (services/solvers/ortools_solver.py lines 27-36).
The inputs are typed integers (`None` becomes 0). -/
def _tw_pair_to_seconds (a b : Option ℤ) : ℤ × ℤ :=
  let a := a.getD 0
  let b := b.getD 0
  let mx := max a b
  if mx ≤ 48 then (a * 3600, b * 3600)
  else if mx ≤ 1440 then (a * 60, b * 60)
  else (a, b)

/-- `_svc_to_seconds` (services/solvers/ortools_solver.py lines 39-47). -/
def _svc_to_seconds (s : Option ℤ) : ℤ :=
  let s := s.getD 0
  if s ≤ 0 then 0
  else if s ≤ 48 then s * 3600
  else if s ≤ 1440 then s * 60
  else s

/-- Modelled from the spec: the per-value time-unit rule — a value is treated
as hours (×3600) when the pair maximum is at most 48, as minutes (×60) when it
is at most 1440, and as seconds unchanged otherwise. -/
def specTimeUnitRule (v mx : ℤ) : ℤ :=
  if mx ≤ 48 then v * 3600 else if mx ≤ 1440 then v * 60 else v

/-- C5 (amended): both bounds of a time window are converted by the spec's
threshold rule applied to the pair maximum, and a missing value is treated as
0; service times follow the same threshold rule only for positive values —
nonpositive service times are clamped to 0 instead (the extra first clause of
`_svc_to_seconds`). -/
theorem time_unit_conversion_rule :
    (∀ a b : ℤ, _tw_pair_to_seconds (some a) (some b)
        = (specTimeUnitRule a (max a b), specTimeUnitRule b (max a b)))
    ∧ (∀ s : ℤ, _svc_to_seconds (some s) = if s ≤ 0 then 0 else specTimeUnitRule s s)
    ∧ _tw_pair_to_seconds none none = (0, 0)
    ∧ _svc_to_seconds none = 0 := by
  refine ⟨fun a b => ?_, fun s => ?_, by decide, by decide⟩
  · simp only [_tw_pair_to_seconds, specTimeUnitRule, Option.getD_some]
    split_ifs <;> rfl
  · simp only [_svc_to_seconds, specTimeUnitRule, Option.getD_some]

/-- C5 counterexample: a negative service time does not follow the same rule
as time-window values — the pair rule multiplies −1 by 3600 (hours), while
`_svc_to_seconds` clamps it to 0. -/
theorem svc_to_seconds_not_same_rule :
    _tw_pair_to_seconds (some (-1)) (some (-1)) = (-3600, -3600)
    ∧ _svc_to_seconds (some (-1)) = 0
    ∧ _svc_to_seconds (some (-1)) ≠ (_tw_pair_to_seconds (some (-1)) (some (-1))).1 := by
  decide

/-- `_n_nodes_from_matrix` (api/solver_routes.py lines 43-48): length of the
distances table when non-empty, else of the durations table, else 0. -/
def _n_nodes_from_matrix (m : MatrixResult) : ℕ :=
  if m.distances ≠ [] then m.distances.length
  else match m.durations with
    | some ds => if ds ≠ [] then ds.length else 0
    | none => 0

/-- Per-entry body of the time-window loop of
`_normalize_optional_arrays_for_solver` (api/solver_routes.py lines 192-209):
`None` or a malformed entry becomes `[0, INF]`; otherwise `start` is the first
bound (0 when `None`), `end` the second (INF when `None`), and when
`end < start` the end is clamped up to the start (`end = start`).  The
`math.isinf` guard cannot fire on integer inputs and is omitted. -/
def _norm_tw_entry (inf : ℤ) (tw : Option (List (Option ℤ))) : List ℤ :=
  match tw with
  | none => [0, inf]
  | some l =>
    if l.length = 2 then
      let start := (l.getD 0 none).getD 0
      let end1 := (l.getD 1 none).getD inf
      let end2 := if end1 < start then start else end1
      [start, end2]
    else [0, inf]

/-- Core of `_normalize_optional_arrays_for_solver` (api/solver_routes.py
lines 163-216), i.e. the part reached for solver `pyomo`/`ortools` with a
matrix of `n > 0` nodes; the early branches return the three inputs unchanged
and are not modelled.  Missing arrays default, short arrays are padded, long
arrays truncated, and each time window is normalized by `_norm_tw_entry`. -/
def _normalize_optional_arrays_core (n : ℕ) (demands : Option (List ℤ))
    (node_time_windows : Option (List (Option (List (Option ℤ)))))
    (node_service_times : Option (List ℤ)) : List ℤ × List (List ℤ) × List ℤ :=
  let demands := match demands with
    | none => List.replicate n (0 : ℤ)
    | some l => if l.length = n then l else (l ++ List.replicate n 0).take n
  let nst := match node_service_times with
    | none => List.replicate n (0 : ℤ)
    | some l => if l.length = n then l else (l ++ List.replicate n 0).take n
  let inf : ℤ := 10 ^ 9
  let ntw := match node_time_windows with
    | none => List.replicate n ([0, inf])
    | some l =>
      (l.take n ++ List.replicate (n - l.length) (some [none, none])).map (_norm_tw_entry inf)
  (demands, ntw, nst)

/-- One parsed data row of a Solomon file (file_handler/solomon_loader.py
lines 77-89): all seven columns go through `int(float(...))` except the
coordinates, which stay floats. -/
structure SolomonRow where
  id : ℤ
  x : ℚ
  y : ℚ
  demand : ℤ
  ready : ℤ
  due : ℤ
  service : ℤ
deriving DecidableEq

/-- A waypoint dict emitted by `load_solomon_txt` (solomon_loader.py lines
127-146). -/
structure SolomonWaypoint where
  id : String
  x : ℚ
  y : ℚ
  lat : ℚ
  lon : ℚ
  demand : ℤ
  service_time : ℤ
  time_window : List ℤ
  depot : Bool
deriving DecidableEq, Inhabited

/-- The five index-addressed arrays of solomon_loader.py lines 101-105,
modelled as functions on indices. -/
structure SolArrays where
  coords : ℕ → ℚ × ℚ
  demands : ℕ → ℤ
  ready : ℕ → ℤ
  due : ℕ → ℤ
  service : ℕ → ℤ

/-- Initial array contents (solomon_loader.py lines 101-105). -/
def solInitArrays : SolArrays :=
  ⟨fun _ => (0, 0), fun _ => 0, fun _ => 0, fun _ => 10 ^ 9, fun _ => 0⟩

/-- One iteration of the row-filling loop (solomon_loader.py lines 107-114):
rows with out-of-range ids are skipped; `due[i] = max(ready[i], r["due"])`
uses the just-assigned `ready[i] = r["ready"]`. -/
def solApplyRow (n : ℕ) (ar : SolArrays) (r : SolomonRow) : SolArrays :=
  if 0 ≤ r.id ∧ r.id < (n : ℤ) then
    let i := r.id.toNat
    ⟨fun j => if j = i then (r.x, r.y) else ar.coords j,
     fun j => if j = i then r.demand else ar.demands j,
     fun j => if j = i then r.ready else ar.ready j,
     fun j => if j = i then max r.ready r.due else ar.due j,
     fun j => if j = i then r.service else ar.service j⟩
  else ar

/-- Python `max(r["id"] for r in rows)` over a non-empty row list. -/
def solMaxId : List SolomonRow → ℤ
  | [] => 0
  | r :: rest => rest.foldl (fun m r2 => max m r2.id) r.id

/-- Python `min(r["id"] for r in rows)` over a non-empty row list. -/
def solMinId : List SolomonRow → ℤ
  | [] => 0
  | r :: rest => rest.foldl (fun m r2 => min m r2.id) r.id

/-- Depot selection (solomon_loader.py lines 116-120): id 0 when present,
otherwise the smallest id. -/
def solDepotIndex (rows : List SolomonRow) : ℤ :=
  if rows.any (fun r => r.id = 0) then 0 else solMinId rows

/-- Python `max(due) if due else 10**9` over the length-`n` due array
(solomon_loader.py line 121). -/
def solMaxDue (n : ℕ) (ar : SolArrays) : ℤ :=
  match (List.range n).map ar.due with
  | [] => 10 ^ 9
  | d :: rest => rest.foldl max d

/-- Depot-window widening (solomon_loader.py lines 122-124):
`ready[d] = min(ready[d], 0)` and `due[d] = max(due[d], max_due)` when the
depot index is in range. -/
def solAdjustDepot (n : ℕ) (depot : ℤ) (ar : SolArrays) : SolArrays :=
  if 0 ≤ depot ∧ depot < (n : ℤ) then
    let d := depot.toNat
    let md := solMaxDue n ar
    { ar with
      ready := fun j => if j = d then min (ar.ready d) 0 else ar.ready j,
      due := fun j => if j = d then max (ar.due d) md else ar.due j }
  else ar

/-- Waypoint emission (solomon_loader.py lines 127-146): both coordinate
spaces, demand, `service_time` and `time_window` scaled by 60 into seconds,
and the depot flag. -/
def solWaypoints (n : ℕ) (depot : ℤ) (ar : SolArrays) : List SolomonWaypoint :=
  (List.range n).map (fun i =>
    let c := ar.coords i
    { id := toString i, x := c.1, y := c.2, lat := c.1, lon := c.2,
      demand := ar.demands i, service_time := ar.service i * 60,
      time_window := [ar.ready i * 60, ar.due i * 60],
      depot := ((i : ℤ) == depot) })

/-- The parts of the canonical Solomon instance that the claims concern;
`matrix` (a separate Euclidean computation) and `meta` are omitted. -/
structure SolomonInstance where
  waypoints : List SolomonWaypoint
  depot_index : ℤ
  fleet : List Vehicle
deriving DecidableEq

/-- `load_solomon_txt` from parsed rows onward (solomon_loader.py lines
93-162): text/regex extraction of the rows and of the vehicle block (lines
24-91) is not modelled — `rows`, `vehicles` and `capacity` are its outputs.
An empty row list raises. -/
def load_solomon_rows (rows : List SolomonRow) (vehicles : ℕ) (capacity : ℤ) :
    Except String SolomonInstance :=
  if rows.isEmpty then .error "Solomon parser: no rows parsed"
  else
    let n : ℕ := (solMaxId rows + 1).toNat
    let ar := rows.foldl (solApplyRow n) solInitArrays
    let depot := solDepotIndex rows
    let ar2 := solAdjustDepot n depot ar
    let fleet : List Vehicle := (List.range (max 1 vehicles)).map (fun k =>
      { id := "veh-" ++ toString (k + 1), capacity := some [capacity],
        skills := some [], start := some depot, end_ := some depot })
    .ok { waypoints := solWaypoints n depot ar2, depot_index := depot, fleet := fleet }

/-- Indexing a mapped range: `getD` returns the function value in range. -/
theorem getD_range_map {α : Type} (f : ℕ → α) (n i : ℕ) (h : i < n) (d : α) :
    ((List.range n).map f).getD i d = f i := by
  rw [List.getD_eq_getElem?_getD, List.getElem?_map, List.getElem?_range h]
  rfl

/-- Rows whose id differs from `j` never write index `j`. -/
theorem solFold_untouched (n : ℕ) (j : ℕ) :
    ∀ (rows : List SolomonRow), (∀ r ∈ rows, r.id ≠ (j : ℤ)) → ∀ (ar : SolArrays),
    (rows.foldl (solApplyRow n) ar).coords j = ar.coords j
    ∧ (rows.foldl (solApplyRow n) ar).demands j = ar.demands j
    ∧ (rows.foldl (solApplyRow n) ar).ready j = ar.ready j
    ∧ (rows.foldl (solApplyRow n) ar).due j = ar.due j
    ∧ (rows.foldl (solApplyRow n) ar).service j = ar.service j := by
  intro rows
  induction rows with
  | nil => exact fun _ _ => ⟨rfl, rfl, rfl, rfl, rfl⟩
  | cons r rest ih =>
    intro hj ar
    have hr : r.id ≠ (j : ℤ) := hj r (List.mem_cons_self r rest)
    have hrest : ∀ r2 ∈ rest, r2.id ≠ (j : ℤ) := fun r2 h2 => hj r2 (List.mem_cons_of_mem r h2)
    have hstep : (solApplyRow n ar r).coords j = ar.coords j
        ∧ (solApplyRow n ar r).demands j = ar.demands j
        ∧ (solApplyRow n ar r).ready j = ar.ready j
        ∧ (solApplyRow n ar r).due j = ar.due j
        ∧ (solApplyRow n ar r).service j = ar.service j := by
      unfold solApplyRow
      split
      · next hcond =>
        have hne : j ≠ r.id.toNat := by
          intro hji
          exact hr (by rw [hji, Int.toNat_of_nonneg hcond.1])
        simp [hne]
      · exact ⟨rfl, rfl, rfl, rfl, rfl⟩
    have := ih hrest (solApplyRow n ar r)
    simp only [List.foldl_cons]
    exact ⟨this.1.trans hstep.1, this.2.1.trans hstep.2.1, this.2.2.1.trans hstep.2.2.1,
      this.2.2.2.1.trans hstep.2.2.2.1, this.2.2.2.2.trans hstep.2.2.2.2⟩

/-- With pairwise distinct in-range ids, the filled arrays hold each row's
values at its id; `due` holds `max ready due`. -/
theorem solFold_mem (n : ℕ) :
    ∀ (rows : List SolomonRow) (ar0 : SolArrays) (r : SolomonRow), r ∈ rows →
    (rows.map (fun r2 => r2.id)).Nodup → 0 ≤ r.id → r.id < (n : ℤ) →
    (rows.foldl (solApplyRow n) ar0).coords r.id.toNat = (r.x, r.y)
    ∧ (rows.foldl (solApplyRow n) ar0).demands r.id.toNat = r.demand
    ∧ (rows.foldl (solApplyRow n) ar0).ready r.id.toNat = r.ready
    ∧ (rows.foldl (solApplyRow n) ar0).due r.id.toNat = max r.ready r.due
    ∧ (rows.foldl (solApplyRow n) ar0).service r.id.toNat = r.service := by
  intro rows
  induction rows with
  | nil => intro ar0 r hr; exact absurd hr (List.not_mem_nil r)
  | cons r0 rest ih =>
    intro ar0 r hr hnd h0 hlt
    rcases List.mem_cons.mp hr with heq | hmem
    · subst heq
      have hrest : ∀ r2 ∈ rest, r2.id ≠ ((r.id.toNat : ℕ) : ℤ) := by
        intro r2 h2 heq2
        rw [Int.toNat_of_nonneg h0] at heq2
        have : r.id ∈ rest.map (fun r2 => r2.id) := by
          exact List.mem_map.mpr ⟨r2, h2, heq2⟩
        exact (List.nodup_cons.mp hnd).1 this
      have hu := solFold_untouched n r.id.toNat rest hrest (solApplyRow n ar0 r)
      have hstep : (solApplyRow n ar0 r).coords r.id.toNat = (r.x, r.y)
          ∧ (solApplyRow n ar0 r).demands r.id.toNat = r.demand
          ∧ (solApplyRow n ar0 r).ready r.id.toNat = r.ready
          ∧ (solApplyRow n ar0 r).due r.id.toNat = max r.ready r.due
          ∧ (solApplyRow n ar0 r).service r.id.toNat = r.service := by
        unfold solApplyRow
        rw [if_pos ⟨h0, hlt⟩]
        simp
      simp only [List.foldl_cons]
      exact ⟨hu.1.trans hstep.1, hu.2.1.trans hstep.2.1, hu.2.2.1.trans hstep.2.2.1,
        hu.2.2.2.1.trans hstep.2.2.2.1, hu.2.2.2.2.trans hstep.2.2.2.2⟩
    · simp only [List.foldl_cons]
      exact ih (solApplyRow n ar0 r0) r hmem (List.nodup_cons.mp hnd).2 h0 hlt

/-- Every row id is bounded by `solMaxId`. -/
theorem solMaxId_ge (rows : List SolomonRow) (r : SolomonRow) (hr : r ∈ rows) :
    r.id ≤ solMaxId rows := by
  have hinit : ∀ (l : List SolomonRow) (a : ℤ), a ≤ l.foldl (fun m r2 => max m r2.id) a := by
    intro l
    induction l with
    | nil => intro a; exact le_refl a
    | cons x xs ih =>
      intro a
      exact le_trans (le_max_left a x.id) (ih (max a x.id))
  have hmem : ∀ (l : List SolomonRow) (a : ℤ) (r2 : SolomonRow), r2 ∈ l →
      r2.id ≤ l.foldl (fun m r3 => max m r3.id) a := by
    intro l
    induction l with
    | nil => intro a r2 h2; exact absurd h2 (List.not_mem_nil r2)
    | cons x xs ih =>
      intro a r2 h2
      rcases List.mem_cons.mp h2 with heq | hmem2
      · subst heq
        exact le_trans (le_max_right a r2.id) (hinit xs (max a r2.id))
      · exact ih (max a x.id) r2 hmem2
  cases rows with
  | nil => exact absurd hr (List.not_mem_nil r)
  | cons x xs =>
    rcases List.mem_cons.mp hr with heq | hmem2
    · subst heq; exact hinit xs r.id
    · exact hmem xs x.id r hmem2

/-- `solMinId` of a list of nonnegative ids is nonnegative. -/
theorem solMinId_nonneg (rows : List SolomonRow) (hnn : ∀ r ∈ rows, 0 ≤ r.id)
    (hne : rows ≠ []) : 0 ≤ solMinId rows := by
  have haux : ∀ (l : List SolomonRow) (a : ℤ), 0 ≤ a → (∀ r ∈ l, 0 ≤ r.id) →
      0 ≤ l.foldl (fun m r2 => min m r2.id) a := by
    intro l
    induction l with
    | nil => intro a ha _; exact ha
    | cons x xs ih =>
      intro a ha hl
      refine ih (min a x.id) (le_min ha (hl x (List.mem_cons_self x xs))) ?_
      exact fun r h2 => hl r (List.mem_cons_of_mem x h2)
  cases rows with
  | nil => exact absurd rfl hne
  | cons x xs =>
    exact haux xs x.id (hnn x (List.mem_cons_self x xs))
      (fun r h2 => hnn r (List.mem_cons_of_mem x h2))

/-- The chosen depot index is nonnegative when all ids are. -/
theorem solDepotIndex_nonneg (rows : List SolomonRow) (hnn : ∀ r ∈ rows, 0 ≤ r.id)
    (hne : rows ≠ []) : 0 ≤ solDepotIndex rows := by
  unfold solDepotIndex
  split
  · exact le_refl 0
  · exact solMinId_nonneg rows hnn hne

/-- Depot adjustment never changes coordinates, demands or service times. -/
theorem solAdjustDepot_keeps (n : ℕ) (depot : ℤ) (ar : SolArrays) (j : ℕ) :
    (solAdjustDepot n depot ar).coords j = ar.coords j
    ∧ (solAdjustDepot n depot ar).demands j = ar.demands j
    ∧ (solAdjustDepot n depot ar).service j = ar.service j := by
  unfold solAdjustDepot
  split <;> exact ⟨rfl, rfl, rfl⟩

/-- Depot adjustment leaves every non-depot index's window alone. -/
theorem solAdjustDepot_other (n : ℕ) (depot : ℤ) (ar : SolArrays) (j : ℕ)
    (hj : (j : ℤ) ≠ depot) :
    (solAdjustDepot n depot ar).ready j = ar.ready j
    ∧ (solAdjustDepot n depot ar).due j = ar.due j := by
  unfold solAdjustDepot
  split
  · next hcond =>
    have hne : j ≠ depot.toNat := by
      intro hji
      exact hj (by rw [hji, Int.toNat_of_nonneg hcond.1])
    simp [hne]
  · exact ⟨rfl, rfl⟩

/-- Depot adjustment at an in-range depot: `ready` is clamped to at most 0 and
`due` raised to at least the array maximum. -/
theorem solAdjustDepot_depot (n : ℕ) (depot : ℤ) (ar : SolArrays)
    (h0 : 0 ≤ depot) (hlt : depot < (n : ℤ)) :
    (solAdjustDepot n depot ar).ready depot.toNat = min (ar.ready depot.toNat) 0
    ∧ (solAdjustDepot n depot ar).due depot.toNat
        = max (ar.due depot.toNat) (solMaxDue n ar) := by
  unfold solAdjustDepot
  rw [if_pos ⟨h0, hlt⟩]
  simp


/-- Field values of the `i`-th emitted Solomon waypoint. -/
theorem solWaypoints_fields (n : ℕ) (depot : ℤ) (ar : SolArrays) (i : ℕ) (h : i < n) :
    (solWaypoints n depot ar).getD i default
      = { id := toString i, x := (ar.coords i).1, y := (ar.coords i).2,
          lat := (ar.coords i).1, lon := (ar.coords i).2,
          demand := ar.demands i, service_time := ar.service i * 60,
          time_window := [ar.ready i * 60, ar.due i * 60],
          depot := ((i : ℤ) == depot) } := by
  unfold solWaypoints
  exact getD_range_map _ n i h default

/-- C8 (amended): for a Solomon file with pairwise distinct nonnegative ids,
each emitted waypoint's `service_time` is the file's minute value × 60; its
`time_window` is the file's minute values × 60 only up to two clamps — the end
is `max(ready, due) * 60` (so it equals `due * 60` exactly when
`ready ≤ due`), and the depot's window is widened to start at
`min(ready, 0) * 60` and end at least at `max(ready, due) * 60`. -/
theorem solomon_times_sixty (rows : List SolomonRow) (vehicles : ℕ) (capacity : ℤ)
    (r : SolomonRow) (hr : r ∈ rows) (hnd : (rows.map (fun r2 => r2.id)).Nodup)
    (hnn : ∀ r2 ∈ rows, 0 ≤ r2.id) :
    ∃ inst, load_solomon_rows rows vehicles capacity = .ok inst
    ∧ (inst.waypoints.getD r.id.toNat default).service_time = r.service * 60
    ∧ (r.id ≠ inst.depot_index →
        (inst.waypoints.getD r.id.toNat default).time_window
          = [r.ready * 60, max r.ready r.due * 60])
    ∧ (r.id = inst.depot_index →
        ∃ e, (inst.waypoints.getD r.id.toNat default).time_window
            = [min r.ready 0 * 60, e * 60] ∧ max r.ready r.due ≤ e) := by
  have hne : rows ≠ [] := by
    intro h
    rw [h] at hr
    exact absurd hr (List.not_mem_nil r)
  have h0r : 0 ≤ r.id := hnn r hr
  have hler : r.id ≤ solMaxId rows := solMaxId_ge rows r hr
  have hmaxnn : 0 ≤ solMaxId rows := le_trans h0r hler
  have hn : (((solMaxId rows + 1).toNat : ℕ) : ℤ) = solMaxId rows + 1 :=
    Int.toNat_of_nonneg (by omega)
  have hlt : r.id < (((solMaxId rows + 1).toNat : ℕ) : ℤ) := by omega
  have hi : r.id.toNat < (solMaxId rows + 1).toNat := by
    have h1 : ((r.id.toNat : ℕ) : ℤ) = r.id := Int.toNat_of_nonneg h0r
    omega
  have hdep0 : 0 ≤ solDepotIndex rows := solDepotIndex_nonneg rows hnn hne
  have hload : load_solomon_rows rows vehicles capacity = .ok
      { waypoints := solWaypoints (solMaxId rows + 1).toNat (solDepotIndex rows)
          (solAdjustDepot (solMaxId rows + 1).toNat (solDepotIndex rows)
            (rows.foldl (solApplyRow (solMaxId rows + 1).toNat) solInitArrays)),
        depot_index := solDepotIndex rows,
        fleet := (List.range (max 1 vehicles)).map (fun k =>
          { id := "veh-" ++ toString (k + 1), capacity := some [capacity],
            skills := some [], start := some (solDepotIndex rows),
            end_ := some (solDepotIndex rows) }) } := by
    unfold load_solomon_rows
    rw [if_neg (by simp [hne])]
  have hfold := solFold_mem (solMaxId rows + 1).toNat rows solInitArrays r hr hnd h0r hlt
  have hwp := solWaypoints_fields (solMaxId rows + 1).toNat (solDepotIndex rows)
    (solAdjustDepot (solMaxId rows + 1).toNat (solDepotIndex rows)
      (rows.foldl (solApplyRow (solMaxId rows + 1).toNat) solInitArrays)) r.id.toNat hi
  refine ⟨_, hload, ?_, ?_, ?_⟩
  · dsimp only
    rw [hwp]
    have hk := solAdjustDepot_keeps (solMaxId rows + 1).toNat (solDepotIndex rows)
      (rows.foldl (solApplyRow (solMaxId rows + 1).toNat) solInitArrays) r.id.toNat
    dsimp only
    rw [hk.2.2, hfold.2.2.2.2]
  · intro hnd2
    dsimp only at hnd2 ⊢
    rw [hwp]
    have hid : ((r.id.toNat : ℕ) : ℤ) ≠ solDepotIndex rows := by
      rw [Int.toNat_of_nonneg h0r]; exact hnd2
    have ho := solAdjustDepot_other (solMaxId rows + 1).toNat (solDepotIndex rows)
      (rows.foldl (solApplyRow (solMaxId rows + 1).toNat) solInitArrays) r.id.toNat hid
    dsimp only
    rw [ho.1, ho.2, hfold.2.2.1, hfold.2.2.2.1]
  · intro hd2
    dsimp only at hd2 ⊢
    have hdlt : solDepotIndex rows < (((solMaxId rows + 1).toNat : ℕ) : ℤ) := by
      rw [← hd2]; exact hlt
    have hdd := solAdjustDepot_depot (solMaxId rows + 1).toNat (solDepotIndex rows)
      (rows.foldl (solApplyRow (solMaxId rows + 1).toNat) solInitArrays) hdep0 hdlt
    have htn : (solDepotIndex rows).toNat = r.id.toNat := by rw [← hd2]
    rw [htn] at hdd
    refine ⟨max (max r.ready r.due)
        (solMaxDue (solMaxId rows + 1).toNat
          (rows.foldl (solApplyRow (solMaxId rows + 1).toNat) solInitArrays)), ?_,
        le_max_left _ _⟩
    rw [hwp]
    dsimp only
    rw [hdd.1, hdd.2, hfold.2.2.1, hfold.2.2.2.1]

/-- Witness for `solomon_times_sixty`: a two-row file, applied to the
non-depot row `id 1, ready 2, due 8, service 4`. -/
theorem solomon_times_sixty_witness :
    ((⟨1, 5, 5, 3, 2, 8, 4⟩ : SolomonRow) ∈
        [(⟨0, 0, 0, 0, 0, 10, 0⟩ : SolomonRow), ⟨1, 5, 5, 3, 2, 8, 4⟩])
    ∧ ([(⟨0, 0, 0, 0, 0, 10, 0⟩ : SolomonRow), ⟨1, 5, 5, 3, 2, 8, 4⟩].map
          (fun r2 => r2.id)).Nodup
    ∧ (∀ r2 ∈ [(⟨0, 0, 0, 0, 0, 10, 0⟩ : SolomonRow), ⟨1, 5, 5, 3, 2, 8, 4⟩], 0 ≤ r2.id)
    ∧ (∃ inst, load_solomon_rows
          [(⟨0, 0, 0, 0, 0, 10, 0⟩ : SolomonRow), ⟨1, 5, 5, 3, 2, 8, 4⟩] 10 200 = .ok inst
        ∧ (inst.waypoints.getD (1 : ℤ).toNat default).service_time = (4 : ℤ) * 60
        ∧ ((1 : ℤ) ≠ inst.depot_index →
            (inst.waypoints.getD (1 : ℤ).toNat default).time_window
              = [(2 : ℤ) * 60, max (2 : ℤ) 8 * 60])
        ∧ ((1 : ℤ) = inst.depot_index →
            ∃ e, (inst.waypoints.getD (1 : ℤ).toNat default).time_window
                = [min (2 : ℤ) 0 * 60, e * 60] ∧ max (2 : ℤ) 8 ≤ e)) :=
  ⟨by decide, by decide, by decide,
   solomon_times_sixty [⟨0, 0, 0, 0, 0, 10, 0⟩, ⟨1, 5, 5, 3, 2, 8, 4⟩] 10 200
     ⟨1, 5, 5, 3, 2, 8, 4⟩ (by decide) (by decide) (by decide)⟩

deriving instance DecidableEq for Except

/-- C8 counterexample: a row whose `due` (5 minutes) is below its `ready`
(10 minutes) is emitted with time window `[600, 600]` seconds, not the file's
`[ready × 60, due × 60] = [600, 300]`. -/
theorem solomon_times_sixty_counterexample :
    (load_solomon_rows [⟨0, 0, 0, 0, 0, 10, 0⟩, ⟨1, 0, 0, 0, 10, 5, 0⟩] 10 200).map
        (fun inst => (inst.waypoints.getD 1 default).time_window)
      = .ok [600, 600]
    ∧ (Except.ok ([600, 600] : List ℤ) : Except String (List ℤ))
        ≠ .ok [10 * 60, 5 * 60] := by
  decide

/-- C4 (amended): a provided time window whose end is strictly below its start
is not swapped but clamped.  In the solve-request normalization
(`_normalize_optional_arrays_for_solver`) the emitted window is
`[start, start]` — the end is raised to the start and the original end value
is discarded; in the Solomon parser the stored due is `max(ready, due)`, so a
non-depot node with `due < ready` is emitted with window
`[ready * 60, ready * 60]`. -/
theorem tw_disorder_clamped :
    (∀ (inf s e : ℤ), e < s → _norm_tw_entry inf (some [some s, some e]) = [s, s])
    ∧ (∀ (rows : List SolomonRow) (vehicles : ℕ) (capacity : ℤ) (r : SolomonRow),
        r ∈ rows → (rows.map (fun r2 => r2.id)).Nodup → (∀ r2 ∈ rows, 0 ≤ r2.id) →
        r.due < r.ready → r.id ≠ solDepotIndex rows →
        ∃ inst, load_solomon_rows rows vehicles capacity = .ok inst
          ∧ (inst.waypoints.getD r.id.toNat default).time_window
              = [r.ready * 60, r.ready * 60]) := by
  constructor
  · intro inf s e h
    simp [_norm_tw_entry, h]
  · intro rows vehicles capacity r hr hnd hnn hdr hdep
    have hne : rows ≠ [] := by
      intro h
      rw [h] at hr
      exact absurd hr (List.not_mem_nil r)
    have h0r : 0 ≤ r.id := hnn r hr
    have hler : r.id ≤ solMaxId rows := solMaxId_ge rows r hr
    have hmaxnn : 0 ≤ solMaxId rows := le_trans h0r hler
    have hlt : r.id < (((solMaxId rows + 1).toNat : ℕ) : ℤ) := by
      have := Int.toNat_of_nonneg (show (0 : ℤ) ≤ solMaxId rows + 1 by omega)
      omega
    have hi : r.id.toNat < (solMaxId rows + 1).toNat := by
      have h1 : ((r.id.toNat : ℕ) : ℤ) = r.id := Int.toNat_of_nonneg h0r
      omega
    have hload : load_solomon_rows rows vehicles capacity = .ok
        { waypoints := solWaypoints (solMaxId rows + 1).toNat (solDepotIndex rows)
            (solAdjustDepot (solMaxId rows + 1).toNat (solDepotIndex rows)
              (rows.foldl (solApplyRow (solMaxId rows + 1).toNat) solInitArrays)),
          depot_index := solDepotIndex rows,
          fleet := (List.range (max 1 vehicles)).map (fun k =>
            { id := "veh-" ++ toString (k + 1), capacity := some [capacity],
              skills := some [], start := some (solDepotIndex rows),
              end_ := some (solDepotIndex rows) }) } := by
      unfold load_solomon_rows
      rw [if_neg (by simp [hne])]
    have hfold := solFold_mem (solMaxId rows + 1).toNat rows solInitArrays r hr hnd h0r hlt
    have hwp := solWaypoints_fields (solMaxId rows + 1).toNat (solDepotIndex rows)
      (solAdjustDepot (solMaxId rows + 1).toNat (solDepotIndex rows)
        (rows.foldl (solApplyRow (solMaxId rows + 1).toNat) solInitArrays)) r.id.toNat hi
    refine ⟨_, hload, ?_⟩
    dsimp only
    rw [hwp]
    have hid : ((r.id.toNat : ℕ) : ℤ) ≠ solDepotIndex rows := by
      rw [Int.toNat_of_nonneg h0r]; exact hdep
    have ho := solAdjustDepot_other (solMaxId rows + 1).toNat (solDepotIndex rows)
      (rows.foldl (solApplyRow (solMaxId rows + 1).toNat) solInitArrays) r.id.toNat hid
    dsimp only
    rw [ho.1, ho.2, hfold.2.2.1, hfold.2.2.2.1, max_eq_left (le_of_lt hdr)]

/-- Witness for `tw_disorder_clamped`: the entry `[5, 3]` normalizes to
`[5, 5]`, and the Solomon row `id 1, ready 10, due 5` is emitted with window
`[600, 600]`. -/
theorem tw_disorder_clamped_witness :
    ((3 : ℤ) < 5) ∧ ((5 : ℤ) < 10) ∧ ((1 : ℤ) ≠ solDepotIndex
        [(⟨0, 0, 0, 0, 0, 10, 0⟩ : SolomonRow), ⟨1, 0, 0, 0, 10, 5, 0⟩])
    ∧ _norm_tw_entry (10 ^ 9) (some [some 5, some 3]) = [5, 5]
    ∧ (∃ inst, load_solomon_rows
          [(⟨0, 0, 0, 0, 0, 10, 0⟩ : SolomonRow), ⟨1, 0, 0, 0, 10, 5, 0⟩] 10 200 = .ok inst
        ∧ (inst.waypoints.getD (1 : ℤ).toNat default).time_window
            = [(10 : ℤ) * 60, (10 : ℤ) * 60]) :=
  ⟨by decide, by decide, by decide,
   tw_disorder_clamped.1 (10 ^ 9) 5 3 (by decide),
   tw_disorder_clamped.2 [⟨0, 0, 0, 0, 0, 10, 0⟩, ⟨1, 0, 0, 0, 10, 5, 0⟩] 10 200
     ⟨1, 0, 0, 0, 10, 5, 0⟩ (by decide) (by decide) (by decide) (by decide) (by decide)⟩

/-- C4 counterexample: the window `[5, 3]` is normalized to `[5, 5]`, not to
the swapped pair `[3, 5]`; likewise the Solomon row `ready 10, due 5` is
emitted as `[600, 600]`, not as the swapped `[5 * 60, 10 * 60] = [300, 600]`. -/
theorem tw_disorder_swap_refuted :
    _norm_tw_entry (10 ^ 9) (some [some 5, some 3]) = [5, 5]
    ∧ _norm_tw_entry (10 ^ 9) (some [some 5, some 3]) ≠ [3, 5]
    ∧ (load_solomon_rows [⟨0, 0, 0, 0, 0, 10, 0⟩, ⟨1, 0, 0, 0, 10, 5, 0⟩] 10 200).map
        (fun inst => (inst.waypoints.getD 1 default).time_window) = .ok [600, 600]
    ∧ (Except.ok ([600, 600] : List ℤ) : Except String (List ℤ)) ≠ .ok [5 * 60, 10 * 60] := by
  decide

/-- Python `demands or [0] * n` / `node_service_times or [0] * n`
(pyomo_solver.py lines 54, 59): `None` or an empty list defaults to zeros. -/
def pyomoArrOrDefault (n : ℕ) (o : Option (List ℤ)) : List ℤ :=
  match o with
  | none => List.replicate n 0
  | some l => if l.isEmpty then List.replicate n 0 else l

/-- Python `node_time_windows or [None] * n` (pyomo_solver.py line 69). -/
def pyomoTwList (n : ℕ) (ntw : Option (List (Option (List ℤ)))) :
    List (Option (List ℤ)) :=
  match ntw with
  | none => List.replicate n none
  | some l => if l.isEmpty then List.replicate n none else l

/-- `BIG_T` (pyomo_solver.py lines 65-68): the maximum of 10000 and of `tw[1]`
over the truthy provided windows.  Python indexes `tw[1]` directly; windows
are well-formed pairs in every caller, so `getD 1 0` models it. -/
def pyomoBigT (ntw : Option (List (Option (List ℤ)))) : ℤ :=
  ((ntw.getD []).filterMap (fun tw => match tw with
      | some l => if l.isEmpty then none else some (l.getD 1 0)
      | none => none)).foldl max 10000

/-- The integer duration matrix (pyomo_solver.py lines 44-47):
`int(round(x))` over the durations, defaulting to the distances. -/
def pyomoDurations (m : MatrixResult) : List (List ℤ) :=
  match m.durations with
  | some ds => ds.map (List.map pyRound)
  | none => m.distances.map (List.map pyRound)

/-- Vehicle capacities (pyomo_solver.py line 83):
`v.capacity[0] if v.capacity else 10**9` — `None` and `[]` are falsy. -/
def pyomoCaps (fleet : List Vehicle) : List ℤ :=
  fleet.map (fun v => match v.capacity with
    | some (c :: _) => c
    | _ => 10 ^ 9)

/-- The time-window bounds loop (pyomo_solver.py lines 70-80), carrying the
running node index `i`: a truthy length-2 window yields its two bounds,
anything else `(0, BIG_T)`; `hi < lo` raises the upper-below-lower error. -/
def pyomoTwBoundsAux (bigT : ℤ) : ℕ → List (Option (List ℤ)) →
    Except String (List (ℤ × ℤ))
  | _, [] => .ok []
  | i, t :: rest =>
    let lohi : ℤ × ℤ := match t with
      | some l => if l.length = 2 then (l.getD 0 0, l.getD 1 0) else (0, bigT)
      | none => (0, bigT)
    if lohi.2 < lohi.1 then
      .error ("Infeasible time window at node " ++ toString i ++ ": upper < lower ("
        ++ toString lohi.2 ++ " < " ++ toString lohi.1 ++ ").")
    else
      match pyomoTwBoundsAux bigT (i + 1) rest with
      | .error e => .error e
      | .ok bs => .ok (lohi :: bs)

/-- The reachability preflight loop (pyomo_solver.py lines 98-108): for each
non-depot node, raise when its latest time is below the best-case travel
`durations[depot][i]` from the depot. -/
def pyomoDepotCheck (depot : ℕ) (durs : List (List ℤ)) : ℕ → List (ℤ × ℤ) →
    Except String Unit
  | _, [] => .ok ()
  | i, (_, hi) :: rest =>
    if i = depot then pyomoDepotCheck depot durs (i + 1) rest
    else if hi < (durs.getD depot []).getD i 0 then
      .error ("Infeasible: node " ++ toString i ++ " latest time " ++ toString hi
        ++ " is earlier than shortest travel " ++ toString ((durs.getD depot []).getD i 0)
        ++ " from depot.")
    else pyomoDepotCheck depot durs (i + 1) rest

/-- `PyomoSolver.solve` up to and including its preflight feasibility checks
(pyomo_solver.py lines 34-108); `.ok ()` means the preflight passed and the
MIP model build (an external Pyomo call, lines 110 onward) is reached.
`sum(int(x or 0) for x in d)` is the plain sum on integer inputs. -/
def pyomo_solve_preflight (fleet : List Vehicle) (matrix : Option MatrixResult)
    (depot_index : ℕ) (demands : Option (List ℤ))
    (node_time_windows : Option (List (Option (List ℤ))))
    (node_service_times : Option (List ℤ)) : Except String Unit :=
  match matrix with
  | none => .error "Matrix with distances is required."
  | some m =>
    let n := m.distances.length
    if n = 0 then .error "Empty distance matrix." else
    let durations := pyomoDurations m
    if fleet.length = 0 then .error "Fleet is empty." else
    let d := pyomoArrOrDefault n demands
    if d.length ≠ n then .error "Length of demands must match matrix size." else
    let s := pyomoArrOrDefault n node_service_times
    if s.length ≠ n then .error "Length of node_service_times must match matrix size." else
    match pyomoTwBoundsAux (pyomoBigT node_time_windows) 0 (pyomoTwList n node_time_windows) with
    | .error e => .error e
    | .ok tw_bounds =>
      let caps := pyomoCaps fleet
      let total_demand := d.sum
      let total_capacity := (caps.map (fun c => max 0 c)).sum
      if total_demand > total_capacity then
        .error ("Infeasible: total demand " ++ toString total_demand
          ++ " exceeds total vehicle capacity " ++ toString total_capacity
          ++ " (vehicles=" ++ toString fleet.length ++ ", capacities=" ++ toString caps
          ++ "). Increase capacity or add vehicles.")
      else
        pyomoDepotCheck depot_index durations 0 tw_bounds

/-- If some later index violates the reachability bound, the check loop stops
with the error message of the first violating node. -/
theorem pyomoDepotCheck_err (depot : ℕ) (durs : List (List ℤ)) :
    ∀ (l : List (ℤ × ℤ)) (k : ℕ),
    (∃ j, j < l.length ∧ k + j ≠ depot
      ∧ (l.getD j (0, 0)).2 < (durs.getD depot []).getD (k + j) 0) →
    ∃ i hiv, i ≠ depot ∧ hiv < (durs.getD depot []).getD i 0
      ∧ pyomoDepotCheck depot durs k l = .error
          ("Infeasible: node " ++ toString i ++ " latest time " ++ toString hiv
            ++ " is earlier than shortest travel "
            ++ toString ((durs.getD depot []).getD i 0) ++ " from depot.") := by
  intro l
  induction l with
  | nil =>
    rintro k ⟨j, hj, -⟩
    exact absurd hj (by simp)
  | cons p rest ih =>
    rintro k ⟨j, hj, hne, hlt⟩
    obtain ⟨lo, hi⟩ := p
    by_cases hkd : k = depot
    · have hj0 : j ≠ 0 := by
        intro h0
        rw [h0, Nat.add_zero] at hne
        exact hne hkd
      obtain ⟨j', rfl⟩ : ∃ j', j = j' + 1 := ⟨j - 1, by omega⟩
      have hstep : pyomoDepotCheck depot durs k ((lo, hi) :: rest)
          = pyomoDepotCheck depot durs (k + 1) rest := by
        simp [pyomoDepotCheck, hkd]
      have hrec := ih (k + 1) ⟨j', by simpa [Nat.succ_lt_succ_iff] using hj,
        by rw [show k + 1 + j' = k + (j' + 1) by ring]; exact hne,
        by rw [show k + 1 + j' = k + (j' + 1) by ring]
           simpa [List.getD_cons_succ] using hlt⟩
      rw [hstep]
      exact hrec
    · by_cases hviol : hi < (durs.getD depot []).getD k 0
      · refine ⟨k, hi, hkd, hviol, ?_⟩
        simp only [pyomoDepotCheck]
        rw [if_neg hkd, if_pos hviol]
      · have hj0 : j ≠ 0 := by
          intro h0
          rw [h0, Nat.add_zero] at hlt
          simp only [List.getD_cons_zero] at hlt
          exact hviol hlt
        obtain ⟨j', rfl⟩ : ∃ j', j = j' + 1 := ⟨j - 1, by omega⟩
        have hstep : pyomoDepotCheck depot durs k ((lo, hi) :: rest)
            = pyomoDepotCheck depot durs (k + 1) rest := by
          simp only [pyomoDepotCheck]
          rw [if_neg hkd, if_neg hviol]
        have hrec := ih (k + 1) ⟨j', by simpa [Nat.succ_lt_succ_iff] using hj,
          by rw [show k + 1 + j' = k + (j' + 1) by ring]; exact hne,
          by rw [show k + 1 + j' = k + (j' + 1) by ring]
             simpa [List.getD_cons_succ] using hlt⟩
        rw [hstep]
        exact hrec

/-- C3: the Pyomo engine's preflight fails hard — no model is built, hence no
routes are produced — whenever total demand exceeds total capacity (with the
exact message stating both totals, the vehicle count and the capacities), and,
when the demand check passes, whenever some non-depot node's latest
time-window end is strictly below the travel duration from the depot (with the
exact message stating the node, its latest time and the travel bound).  The
shape hypotheses state that the earlier defensive checks (non-empty matrix and
fleet, array lengths, window ordering) pass, which the dispatcher's
normalization guarantees. -/
theorem pyomo_preflight_infeasible (fleet : List Vehicle) (m : MatrixResult)
    (depot_index : ℕ) (demands : Option (List ℤ))
    (ntw : Option (List (Option (List ℤ)))) (nst : Option (List ℤ)) (B : List (ℤ × ℤ))
    (hn : m.distances.length ≠ 0) (hfleet : fleet ≠ [])
    (hd : (pyomoArrOrDefault m.distances.length demands).length = m.distances.length)
    (hs : (pyomoArrOrDefault m.distances.length nst).length = m.distances.length)
    (hB : pyomoTwBoundsAux (pyomoBigT ntw) 0 (pyomoTwList m.distances.length ntw) = .ok B) :
    ((pyomoArrOrDefault m.distances.length demands).sum
        > ((pyomoCaps fleet).map (fun c => max 0 c)).sum →
      pyomo_solve_preflight fleet (some m) depot_index demands ntw nst
        = .error ("Infeasible: total demand "
            ++ toString (pyomoArrOrDefault m.distances.length demands).sum
            ++ " exceeds total vehicle capacity "
            ++ toString ((pyomoCaps fleet).map (fun c => max 0 c)).sum
            ++ " (vehicles=" ++ toString fleet.length
            ++ ", capacities=" ++ toString (pyomoCaps fleet)
            ++ "). Increase capacity or add vehicles."))
    ∧ ((pyomoArrOrDefault m.distances.length demands).sum
        ≤ ((pyomoCaps fleet).map (fun c => max 0 c)).sum →
      (∃ j, j < B.length ∧ j ≠ depot_index
        ∧ (B.getD j (0, 0)).2 < ((pyomoDurations m).getD depot_index []).getD j 0) →
      ∃ i hiv, i ≠ depot_index
        ∧ hiv < ((pyomoDurations m).getD depot_index []).getD i 0
        ∧ pyomo_solve_preflight fleet (some m) depot_index demands ntw nst
            = .error ("Infeasible: node " ++ toString i ++ " latest time " ++ toString hiv
                ++ " is earlier than shortest travel "
                ++ toString (((pyomoDurations m).getD depot_index []).getD i 0)
                ++ " from depot.")) := by
  have hfl : ¬ fleet.length = 0 := by
    simpa [List.length_eq_zero] using hfleet
  constructor
  · intro htd
    simp only [pyomo_solve_preflight]
    rw [if_neg hn, if_neg hfl, if_neg (not_not_intro hd), if_neg (not_not_intro hs), hB]
    dsimp only
    rw [if_pos htd]
  · intro htd hex
    obtain ⟨j, hj1, hj2, hj3⟩ := hex
    obtain ⟨i, hiv, hne, hlt, herr⟩ := pyomoDepotCheck_err depot_index (pyomoDurations m) B 0
      ⟨j, hj1, by simpa using hj2, by simpa using hj3⟩
    refine ⟨i, hiv, hne, hlt, ?_⟩
    simp only [pyomo_solve_preflight]
    rw [if_neg hn, if_neg hfl, if_neg (not_not_intro hd), if_neg (not_not_intro hs), hB]
    dsimp only
    rw [if_neg (not_lt.mpr htd)]
    exact herr

/-- Witness for `pyomo_preflight_infeasible`: a 2-node instance whose node 1
has latest time 10 while travel from the depot takes 20. -/
theorem pyomo_preflight_infeasible_witness :
    ((⟨[[0, 5], [5, 0]], some [[0, 20], [20, 0]]⟩ : MatrixResult).distances.length ≠ 0)
    ∧ ([({ id := "v1", capacity := some [10] } : Vehicle)] ≠ [])
    ∧ ((pyomoArrOrDefault
          (⟨[[0, 5], [5, 0]], some [[0, 20], [20, 0]]⟩ : MatrixResult).distances.length
          (some [0, 1])).length
        = (⟨[[0, 5], [5, 0]], some [[0, 20], [20, 0]]⟩ : MatrixResult).distances.length)
    ∧ ((pyomoArrOrDefault
          (⟨[[0, 5], [5, 0]], some [[0, 20], [20, 0]]⟩ : MatrixResult).distances.length
          (none : Option (List ℤ))).length
        = (⟨[[0, 5], [5, 0]], some [[0, 20], [20, 0]]⟩ : MatrixResult).distances.length)
    ∧ (pyomoTwBoundsAux (pyomoBigT (some [some [0, 100], some [0, 10]])) 0
        (pyomoTwList
          (⟨[[0, 5], [5, 0]], some [[0, 20], [20, 0]]⟩ : MatrixResult).distances.length
          (some [some [0, 100], some [0, 10]]))
        = .ok [(0, 100), (0, 10)])
    ∧ (((pyomoArrOrDefault
            (⟨[[0, 5], [5, 0]], some [[0, 20], [20, 0]]⟩ : MatrixResult).distances.length
            (some [0, 1])).sum
          > ((pyomoCaps [{ id := "v1", capacity := some [10] }]).map (fun c => max 0 c)).sum →
        pyomo_solve_preflight [{ id := "v1", capacity := some [10] }]
            (some ⟨[[0, 5], [5, 0]], some [[0, 20], [20, 0]]⟩) 0 (some [0, 1])
            (some [some [0, 100], some [0, 10]]) none
          = .error ("Infeasible: total demand "
              ++ toString (pyomoArrOrDefault
                  (⟨[[0, 5], [5, 0]], some [[0, 20], [20, 0]]⟩ : MatrixResult).distances.length
                  (some [0, 1])).sum
              ++ " exceeds total vehicle capacity "
              ++ toString ((pyomoCaps [{ id := "v1", capacity := some [10] }]).map
                  (fun c => max 0 c)).sum
              ++ " (vehicles=" ++ toString ([({ id := "v1", capacity := some [10] } : Vehicle)]).length
              ++ ", capacities=" ++ toString (pyomoCaps [{ id := "v1", capacity := some [10] }])
              ++ "). Increase capacity or add vehicles."))
      ∧ ((pyomoArrOrDefault
            (⟨[[0, 5], [5, 0]], some [[0, 20], [20, 0]]⟩ : MatrixResult).distances.length
            (some [0, 1])).sum
          ≤ ((pyomoCaps [{ id := "v1", capacity := some [10] }]).map (fun c => max 0 c)).sum →
        (∃ j, j < ([((0 : ℤ), (100 : ℤ)), (0, 10)]).length ∧ j ≠ 0
          ∧ (([((0 : ℤ), (100 : ℤ)), (0, 10)]).getD j (0, 0)).2
              < ((pyomoDurations ⟨[[0, 5], [5, 0]], some [[0, 20], [20, 0]]⟩).getD 0 []).getD j 0) →
        ∃ i hiv, i ≠ 0
          ∧ hiv < ((pyomoDurations ⟨[[0, 5], [5, 0]], some [[0, 20], [20, 0]]⟩).getD 0 []).getD i 0
          ∧ pyomo_solve_preflight [{ id := "v1", capacity := some [10] }]
              (some ⟨[[0, 5], [5, 0]], some [[0, 20], [20, 0]]⟩) 0 (some [0, 1])
              (some [some [0, 100], some [0, 10]]) none
              = .error ("Infeasible: node " ++ toString i ++ " latest time " ++ toString hiv
                  ++ " is earlier than shortest travel "
                  ++ toString (((pyomoDurations
                      ⟨[[0, 5], [5, 0]], some [[0, 20], [20, 0]]⟩).getD 0 []).getD i 0)
                  ++ " from depot."))) :=
  ⟨by decide, by decide, by decide, by decide, by decide,
   pyomo_preflight_infeasible [{ id := "v1", capacity := some [10] }]
     ⟨[[0, 5], [5, 0]], some [[0, 20], [20, 0]]⟩ 0 (some [0, 1])
     (some [some [0, 100], some [0, 10]]) none [(0, 100), (0, 10)]
     (by decide) (by decide) (by decide) (by decide) (by decide)⟩

/-- Position of the last dot in a character list (Python `name.rfind(".")`). -/
def rfindDotAux : List Char → ℕ → Option ℕ → Option ℕ
  | [], _, acc => acc
  | c :: rest, i, acc => rfindDotAux rest (i + 1) (if c = '.' then some i else acc)

/-- `pathlib.PurePath.stem`: the file name without its suffix.  CPython keeps
the whole name when the last dot is at position 0 (hidden files) or at the
very end. -/
def pyStem (s : String) : String :=
  match rfindDotAux s.data 0 none with
  | some i => if 0 < i ∧ i + 1 < s.data.length then String.mk (s.data.take i) else s
  | none => s

/-- `pathlib.PurePath.suffix`: the final extension including the dot, or
empty. -/
def pySuffix (s : String) : String :=
  match rfindDotAux s.data 0 none with
  | some i => if 0 < i ∧ i + 1 < s.data.length then String.mk (s.data.drop i) else ""
  | none => ""

/-- Python `str.lower()` mapped characterwise (ASCII file names); defined on
the character list so that it reduces in the kernel. -/
def strLower (s : String) : String := String.mk (s.data.map Char.toLower)

/-- `INSTANCE_EXTS` (file_handler/dataset_indexer.py line 18). -/
def INSTANCE_EXTS : List String := [".vrp", ".xml", ".txt"]

/-- `SOLUTION_EXTS` (file_handler/dataset_indexer.py line 19). -/
def SOLUTION_EXTS : List String := [".sol", ".xml", ".txt"]

/-- Stem match against the lowercased target. -/
def isMatchB (target f : String) : Bool := strLower (pyStem f) == target

/-- Instance-extension test. -/
def isInstB (f : String) : Bool := decide (strLower (pySuffix f) ∈ INSTANCE_EXTS)

/-- Solution-extension test. -/
def isSolB (f : String) : Bool := decide (strLower (pySuffix f) ∈ SOLUTION_EXTS)

/-- The scan loop of `find_pair` (dataset_indexer.py lines 206-218) over the
file names in `rglob` order: skip non-matching stems; an if/elif pair fills
the instance slot first (so a file qualifying for both sets counts only as
instance), and the loop breaks once both slots are filled. -/
def findPairAux (target : String) : List String → Option String → Option String →
    Option String × Option String
  | [], inst, sol => (inst, sol)
  | f :: rest, inst, sol =>
    if strLower (pyStem f) ≠ target then findPairAux target rest inst sol
    else if strLower (pySuffix f) ∈ INSTANCE_EXTS ∧ inst = none then
      if sol.isSome then (some f, sol) else findPairAux target rest (some f) sol
    else if strLower (pySuffix f) ∈ SOLUTION_EXTS ∧ sol = none then
      if inst.isSome then (inst, some f) else findPairAux target rest inst (some f)
    else
      if inst.isSome ∧ sol.isSome then (inst, sol) else findPairAux target rest inst sol

/-- `find_pair` (dataset_indexer.py lines 188-234) over the list of file names
under the dataset root in `rglob` order: the target is
`Path(name).stem.lower()`. -/
def find_pair (files : List String) (name : String) : Option String × Option String :=
  findPairAux (strLower (pyStem name)) files none none

/-- A filled instance slot is never overwritten. -/
theorem findPairAux_fst_some (target : String) :
    ∀ (files : List String) (i0 : String) (sol0 : Option String),
    (findPairAux target files (some i0) sol0).1 = some i0 := by
  intro files
  induction files with
  | nil => intro i0 sol0; rfl
  | cons f rest ih =>
    intro i0 sol0
    simp only [findPairAux]
    by_cases hm : strLower (pyStem f) = target
    · rw [if_neg (not_not_intro hm)]
      rw [if_neg (by simp : ¬(strLower (pySuffix f) ∈ INSTANCE_EXTS ∧ (some i0 : Option String) = none))]
      by_cases hc2 : strLower (pySuffix f) ∈ SOLUTION_EXTS ∧ sol0 = none
      · rw [if_pos hc2, if_pos (by simp)]
      · rw [if_neg hc2]
        by_cases hc3 : (some i0 : Option String).isSome = true ∧ sol0.isSome = true
        · rw [if_pos hc3]
        · rw [if_neg hc3]; exact ih i0 sol0
    · rw [if_pos hm]; exact ih i0 sol0

/-- With an empty instance slot, the instance result is the first
stem-matching file bearing an instance extension. -/
theorem findPairAux_fst_none (target : String) :
    ∀ (files : List String) (sol0 : Option String),
    (findPairAux target files none sol0).1
      = files.find? (fun f => isMatchB target f && isInstB f) := by
  intro files
  induction files with
  | nil => intro sol0; rfl
  | cons f rest ih =>
    intro sol0
    by_cases hm : strLower (pyStem f) = target
    · by_cases hi : strLower (pySuffix f) ∈ INSTANCE_EXTS
      · by_cases hso : sol0.isSome = true
        · simp [findPairAux, hm, hi, hso, isMatchB, isInstB]
        · simp [findPairAux, hm, hi, hso, isMatchB, isInstB,
            findPairAux_fst_some target rest f sol0]
      · by_cases hs2 : strLower (pySuffix f) ∈ SOLUTION_EXTS ∧ sol0 = none
        · simp [findPairAux, hm, hi, hs2, isMatchB, isInstB, ih]
        · simp [findPairAux, hm, hi, hs2, isMatchB, isInstB, ih]
    · simp [findPairAux, hm, isMatchB, ih]

/-- A filled solution slot is never overwritten. -/
theorem findPairAux_sol_some (target : String) :
    ∀ (files : List String) (inst0 : Option String) (s : String),
    (findPairAux target files inst0 (some s)).2 = some s := by
  intro files
  induction files with
  | nil => intro inst0 s; rfl
  | cons f rest ih =>
    intro inst0 s
    by_cases hm : strLower (pyStem f) = target
    · by_cases hc1 : strLower (pySuffix f) ∈ INSTANCE_EXTS ∧ inst0 = none
      · simp [findPairAux, hm, hc1.1, hc1.2, isMatchB, isInstB]
      · by_cases hio : inst0.isSome = true
        · simp [findPairAux, hm, hc1, hio, isMatchB, ih]
        · simp [findPairAux, hm, hc1, hio, isMatchB, ih]
    · simp [findPairAux, hm, isMatchB, ih]

/-- With the instance slot already filled and the solution slot empty, the
solution result is the first stem-matching file bearing a solution
extension. -/
theorem findPairAux_snd_inst_some (target : String) :
    ∀ (files : List String) (i0 : String),
    (findPairAux target files (some i0) none).2
      = files.find? (fun f => isMatchB target f && isSolB f) := by
  intro files
  induction files with
  | nil => intro i0; rfl
  | cons f rest ih =>
    intro i0
    by_cases hm : strLower (pyStem f) = target
    · by_cases hs : strLower (pySuffix f) ∈ SOLUTION_EXTS
      · simp [findPairAux, hm, hs, isMatchB, isSolB]
      · simp [findPairAux, hm, hs, isMatchB, isSolB, ih]
    · simp [findPairAux, hm, isMatchB, ih]

/-- When no file matches with an instance extension, the solution result is
the plain first stem-matching file with a solution extension. -/
theorem findPairAux_snd_no_inst (target : String) :
    ∀ (files : List String),
    (∀ f ∈ files, (isMatchB target f && isInstB f) = false) →
    (findPairAux target files none none).2
      = files.find? (fun f => isMatchB target f && isSolB f) := by
  intro files
  induction files with
  | nil => intro _; rfl
  | cons f rest ih =>
    intro hno
    have hf := hno f (List.mem_cons_self f rest)
    have hrest : ∀ f2 ∈ rest, (isMatchB target f2 && isInstB f2) = false :=
      fun f2 h2 => hno f2 (List.mem_cons_of_mem f h2)
    by_cases hm : strLower (pyStem f) = target
    · have hi2 : ¬ strLower (pySuffix f) ∈ INSTANCE_EXTS := by
        intro hmem
        rw [show isMatchB target f = true by simp [isMatchB, hm],
          show isInstB f = true by simp [isInstB, hmem]] at hf
        exact absurd hf (by simp)
      by_cases hs : strLower (pySuffix f) ∈ SOLUTION_EXTS
      · simp [findPairAux, hm, hi2, hs, isMatchB, isSolB,
          findPairAux_sol_some target rest none f]
      · simp [findPairAux, hm, hi2, hs, isMatchB, isSolB, ih hrest]
    · simp [findPairAux, hm, isMatchB, ih hrest]

/-- When the files split as `pre ++ fI :: post` with the first
instance-extension match at `fI`, the solution result is the first
solution-extension match among `pre`, else among `post` — the occurrence
`fI` itself is excluded by the if/elif. -/
theorem findPairAux_snd_split (target : String) :
    ∀ (pre : List String) (fI : String) (post : List String),
    (∀ f ∈ pre, (isMatchB target f && isInstB f) = false) →
    (isMatchB target fI && isInstB fI) = true →
    (findPairAux target (pre ++ fI :: post) none none).2
      = match pre.find? (fun f => isMatchB target f && isSolB f) with
        | some s => some s
        | none => post.find? (fun f => isMatchB target f && isSolB f) := by
  intro pre
  induction pre with
  | nil =>
    intro fI post _ hI
    have hmI : strLower (pyStem fI) = target := by
      have := (Bool.and_eq_true _ _).mp hI
      simpa [isMatchB] using this.1
    have hiI : strLower (pySuffix fI) ∈ INSTANCE_EXTS := by
      have := (Bool.and_eq_true _ _).mp hI
      simpa [isInstB] using this.2
    simp [findPairAux, hmI, hiI, findPairAux_snd_inst_some target post fI]
  | cons f pre' ih =>
    intro fI post hno hI
    have hf := hno f (List.mem_cons_self f pre')
    have hrest : ∀ f2 ∈ pre', (isMatchB target f2 && isInstB f2) = false :=
      fun f2 h2 => hno f2 (List.mem_cons_of_mem f h2)
    by_cases hm : strLower (pyStem f) = target
    · have hi2 : ¬ strLower (pySuffix f) ∈ INSTANCE_EXTS := by
        intro hmem
        rw [show isMatchB target f = true by simp [isMatchB, hm],
          show isInstB f = true by simp [isInstB, hmem]] at hf
        exact absurd hf (by simp)
      by_cases hs : strLower (pySuffix f) ∈ SOLUTION_EXTS
      · simp [findPairAux, hm, hi2, hs, isMatchB, isSolB,
          findPairAux_sol_some target (pre' ++ fI :: post) none f]
      · simp [findPairAux, hm, hi2, hs, isMatchB, isSolB, ih fI post hrest hI]
    · simp [findPairAux, hm, isMatchB, ih fI post hrest hI]

/-- C9 (amended): `find_pair` depends only on the lowercased stem of `name`
(so `find_pair d "c101" = find_pair d "c101.vrp"`); the instance is the first
stem-matching file with an instance extension; the solution is the first
stem-matching file with a solution extension only when no instance-extension
match exists — otherwise the occurrence chosen as instance is excluded, i.e.
the solution is the first solution-extension match before it, else the first
after it (the if/elif never lets one occurrence fill both slots). -/
theorem find_pair_spec :
    (∀ (files : List String) (n1 n2 : String),
      strLower (pyStem n1) = strLower (pyStem n2) → find_pair files n1 = find_pair files n2)
    ∧ (∀ (files : List String) (name : String),
        (find_pair files name).1
          = files.find? (fun f => isMatchB (strLower (pyStem name)) f && isInstB f))
    ∧ (∀ (files : List String) (name : String),
        (∀ f ∈ files, (isMatchB (strLower (pyStem name)) f && isInstB f) = false) →
        (find_pair files name).2
          = files.find? (fun f => isMatchB (strLower (pyStem name)) f && isSolB f))
    ∧ (∀ (pre : List String) (fI : String) (post : List String) (name : String),
        (∀ f ∈ pre, (isMatchB (strLower (pyStem name)) f && isInstB f) = false) →
        (isMatchB (strLower (pyStem name)) fI && isInstB fI) = true →
        (find_pair (pre ++ fI :: post) name).2
          = match pre.find? (fun f => isMatchB (strLower (pyStem name)) f && isSolB f) with
            | some s => some s
            | none => post.find? (fun f => isMatchB (strLower (pyStem name)) f && isSolB f)) := by
  refine ⟨?_, ?_, ?_, ?_⟩
  · intro files n1 n2 h
    unfold find_pair
    rw [h]
  · intro files name
    exact findPairAux_fst_none _ files none
  · intro files name h
    exact findPairAux_snd_no_inst _ files h
  · intro pre fI post name h1 h2
    exact findPairAux_snd_split _ pre fI post h1 h2

/-- Witness for `find_pair_spec`: the spec's own scenario
`c101.vrp / c101.sol / r101.vrp`. -/
theorem find_pair_spec_witness :
    (strLower (pyStem "c101") = strLower (pyStem "c101.vrp"))
    ∧ (∀ f ∈ ([] : List String),
        (isMatchB (strLower (pyStem "c101")) f && isInstB f) = false)
    ∧ ((isMatchB (strLower (pyStem "c101")) "c101.vrp" && isInstB "c101.vrp") = true)
    ∧ find_pair ["c101.vrp", "c101.sol", "r101.vrp"] "c101"
        = find_pair ["c101.vrp", "c101.sol", "r101.vrp"] "c101.vrp"
    ∧ (find_pair ([] ++ "c101.vrp" :: ["c101.sol", "r101.vrp"]) "c101").2
        = match ([] : List String).find?
              (fun f => isMatchB (strLower (pyStem "c101")) f && isSolB f) with
          | some s => some s
          | none => ["c101.sol", "r101.vrp"].find?
              (fun f => isMatchB (strLower (pyStem "c101")) f && isSolB f) :=
  ⟨by decide, by decide, by decide,
   find_pair_spec.1 ["c101.vrp", "c101.sol", "r101.vrp"] "c101" "c101.vrp" (by decide),
   find_pair_spec.2.2.2 [] "c101.vrp" ["c101.sol", "r101.vrp"] "c101"
     (by decide) (by decide)⟩

/-- C9 counterexample: with the single file `c101.txt` — a stem match carrying
a solution extension (`.txt`) — the claim predicts it as the returned
solution, but the if/elif consumes it as the instance and the solution slot
stays empty. -/
theorem find_pair_not_plain_first :
    find_pair ["c101.txt"] "c101" = (some "c101.txt", none)
    ∧ isSolB "c101.txt" = true
    ∧ isMatchB (strLower (pyStem "c101")) "c101.txt" = true
    ∧ (find_pair ["c101.txt"] "c101").2 ≠ some "c101.txt" := by
  decide

/-- `Coordinate` (models/distance_matrix.py): WGS84 degrees. -/
structure Coordinate where
  lat : ℚ
  lon : ℚ
deriving DecidableEq, Inhabited

/-- Python `math.radians`. -/
noncomputable def radians (x : ℝ) : ℝ := x * Real.pi / 180

/-- Python `math.atan2` (the C convention, by quadrant). -/
noncomputable def atan2 (y x : ℝ) : ℝ :=
  if 0 < x then Real.arctan (y / x)
  else if x < 0 ∧ 0 ≤ y then Real.arctan (y / x) + Real.pi
  else if x < 0 ∧ y < 0 then Real.arctan (y / x) - Real.pi
  else if x = 0 ∧ 0 < y then Real.pi / 2
  else if x = 0 ∧ y < 0 then -(Real.pi / 2)
  else 0

/-- `_haversine_km` (adapters/offline/haversine_adapter.py lines 8-17):
great-circle distance in kilometers with `R = 6371.0`. -/
noncomputable def _haversine_km (lat1 lon1 lat2 lon2 : ℝ) : ℝ :=
  let R : ℝ := 6371
  let phi1 := radians lat1
  let phi2 := radians lat2
  let dphi := radians (lat2 - lat1)
  let dlmb := radians (lon2 - lon1)
  let a := Real.sin (dphi / 2) ^ 2 + Real.cos phi1 * Real.cos phi2 * Real.sin (dlmb / 2) ^ 2
  2 * R * atan2 (Real.sqrt a) (Real.sqrt (1 - a))

/-- The distance matrix over the reals returned by the offline adapters. -/
structure HMatrixResult where
  distances : List (List ℝ)
  durations : Option (List (List ℝ))

/-- Python `request.destinations or request.origins`
(haversine_adapter.py line 29). -/
def haversineDests (origins : List Coordinate) (destinations : Option (List Coordinate)) :
    List Coordinate :=
  match destinations with
  | none => origins
  | some l => if l.isEmpty then origins else l

/-- `HaversineAdapter.get_matrix` (haversine_adapter.py lines 25-38): requires
non-empty origins (the source message quotes the word origins; the quotes are
dropped here), defaults destinations to origins, fills the distance matrix
with `_haversine_km` values in kilometers, and returns no durations. -/
noncomputable def HaversineAdapter_get_matrix (origins : List Coordinate)
    (destinations : Option (List Coordinate)) : Except String HMatrixResult :=
  if origins.isEmpty then .error "Haversine: origins is required."
  else
    let dests := haversineDests origins destinations
    .ok { distances := origins.map (fun o => dests.map (fun d =>
            _haversine_km (o.lat : ℝ) (o.lon : ℝ) (d.lat : ℝ) (d.lon : ℝ))),
          durations := none }

/-- Indexing a mapped list: `getD` commutes with `map` in range. -/
theorem getD_map_lt {α β : Type} (f : α → β) (l : List α) (i : ℕ) (h : i < l.length)
    (dα : α) (dβ : β) : (l.map f).getD i dβ = f (l.getD i dα) := by
  have he : l[i]? = some l[i] := List.getElem?_eq_getElem h
  simp [List.getD_eq_getElem?_getD, List.getElem?_map, he]

/-- C7 (amended): for non-empty origins, the Haversine adapter returns a
matrix whose entry (i, j) is the great-circle distance between origins i and
destinations j computed with Earth radius R = 6371 km, with durations null
and destinations defaulting to origins when omitted — but the values are in
float kilometers, not in the integer meters the general adapter contract
wording prescribes (the adapter's own docstring says km). -/
theorem haversine_get_matrix_spec (origins : List Coordinate)
    (destinations : Option (List Coordinate)) (h : origins ≠ []) :
    ∃ M, HaversineAdapter_get_matrix origins destinations = .ok M
    ∧ M.durations = none
    ∧ M.distances.length = origins.length
    ∧ (∀ i, i < origins.length →
        (M.distances.getD i []).length = (haversineDests origins destinations).length)
    ∧ (∀ i j, i < origins.length → j < (haversineDests origins destinations).length →
        (M.distances.getD i []).getD j 0
          = _haversine_km ((origins.getD i default).lat : ℝ) ((origins.getD i default).lon : ℝ)
              (((haversineDests origins destinations).getD j default).lat : ℝ)
              (((haversineDests origins destinations).getD j default).lon : ℝ))
    ∧ HaversineAdapter_get_matrix origins none
        = HaversineAdapter_get_matrix origins (some origins) := by
  have hne : ¬ origins.isEmpty = true := by simp [h]
  have hload : HaversineAdapter_get_matrix origins destinations = .ok
      { distances := origins.map (fun o => (haversineDests origins destinations).map (fun d =>
          _haversine_km (o.lat : ℝ) (o.lon : ℝ) (d.lat : ℝ) (d.lon : ℝ))),
        durations := none } := by
    unfold HaversineAdapter_get_matrix
    rw [if_neg hne]
  refine ⟨_, hload, rfl, by simp, ?_, ?_, ?_⟩
  · intro i hi
    show ((origins.map _).getD i []).length = _
    rw [getD_map_lt _ origins i hi default []]
    simp
  · intro i j hi hj
    show ((origins.map _).getD i []).getD j 0 = _
    rw [getD_map_lt _ origins i hi default []]
    rw [getD_map_lt _ (haversineDests origins destinations) j hj default 0]
  · unfold HaversineAdapter_get_matrix haversineDests
    rw [if_neg hne, if_neg hne]
    simp [h]

/-- Witness for `haversine_get_matrix_spec`: one origin, destinations
omitted. -/
theorem haversine_get_matrix_spec_witness :
    ([(⟨0, 0⟩ : Coordinate)] ≠ [])
    ∧ (∃ M, HaversineAdapter_get_matrix [(⟨0, 0⟩ : Coordinate)] none = .ok M
      ∧ M.durations = none
      ∧ M.distances.length = [(⟨0, 0⟩ : Coordinate)].length
      ∧ (∀ i, i < [(⟨0, 0⟩ : Coordinate)].length →
          (M.distances.getD i []).length
            = (haversineDests [(⟨0, 0⟩ : Coordinate)] none).length)
      ∧ (∀ i j, i < [(⟨0, 0⟩ : Coordinate)].length →
          j < (haversineDests [(⟨0, 0⟩ : Coordinate)] none).length →
          (M.distances.getD i []).getD j 0
            = _haversine_km (([(⟨0, 0⟩ : Coordinate)].getD i default).lat : ℝ)
                (([(⟨0, 0⟩ : Coordinate)].getD i default).lon : ℝ)
                (((haversineDests [(⟨0, 0⟩ : Coordinate)] none).getD j default).lat : ℝ)
                (((haversineDests [(⟨0, 0⟩ : Coordinate)] none).getD j default).lon : ℝ))
      ∧ HaversineAdapter_get_matrix [(⟨0, 0⟩ : Coordinate)] none
          = HaversineAdapter_get_matrix [(⟨0, 0⟩ : Coordinate)] (some [⟨0, 0⟩])) :=
  ⟨by decide, haversine_get_matrix_spec [⟨0, 0⟩] none (by decide)⟩

/-- C7 counterexample: for the antipodal pair (0°, 0°) → (0°, 180°) the
adapter returns exactly `6371 π` — kilometers, an irrational value, hence not
the integer-meter quantity the claim asserts. -/
theorem haversine_returns_km_not_integer_meters :
    ∃ M, HaversineAdapter_get_matrix [(⟨0, 0⟩ : Coordinate)] (some [⟨0, 180⟩]) = .ok M
    ∧ (M.distances.getD 0 []).getD 0 0 = 6371 * Real.pi
    ∧ ¬ ∃ z : ℤ, (6371 * Real.pi : ℝ) = (z : ℝ) := by
  have hval : _haversine_km ((0 : ℚ) : ℝ) ((0 : ℚ) : ℝ) ((0 : ℚ) : ℝ) ((180 : ℚ) : ℝ)
      = 6371 * Real.pi := by
    unfold _haversine_km radians
    push_cast
    rw [show ((0 : ℝ) - 0) * Real.pi / 180 = 0 by ring]
    rw [show ((180 : ℝ) - 0) * Real.pi / 180 = Real.pi by ring]
    rw [show (0 : ℝ) * Real.pi / 180 = 0 by ring]
    rw [show (0 : ℝ) / 2 = 0 by ring]
    rw [Real.sin_zero, Real.cos_zero, Real.sin_pi_div_two]
    norm_num
    unfold atan2
    rw [if_neg (by norm_num), if_neg (by norm_num), if_neg (by norm_num),
      if_pos (by norm_num)]
    ring
  have hload : HaversineAdapter_get_matrix [(⟨0, 0⟩ : Coordinate)] (some [⟨0, 180⟩]) = .ok
      { distances := [(⟨0, 0⟩ : Coordinate)].map (fun o =>
          (haversineDests [(⟨0, 0⟩ : Coordinate)] (some [⟨0, 180⟩])).map (fun d =>
            _haversine_km (o.lat : ℝ) (o.lon : ℝ) (d.lat : ℝ) (d.lon : ℝ))),
        durations := none } := by
    unfold HaversineAdapter_get_matrix
    rw [if_neg (by decide)]
  refine ⟨_, hload, ?_, ?_⟩
  · dsimp only
    rw [getD_map_lt _ [(⟨0, 0⟩ : Coordinate)] 0 (by decide) default []]
    rw [getD_map_lt _ (haversineDests [(⟨0, 0⟩ : Coordinate)] (some [⟨0, 180⟩])) 0
      (by decide) default 0]
    exact hval
  · rintro ⟨z, hz⟩
    have hq : ((((z : ℚ) / 6371 : ℚ)) : ℝ) = Real.pi := by
      push_cast
      have h6371 : (6371 : ℝ) ≠ 0 := by norm_num
      field_simp
      linarith [hz]
    exact irrational_pi ⟨(z : ℚ) / 6371, hq⟩

/-- A waypoint dict as seen by the EUC_2D helpers of api/solver_routes.py:
only the optional numeric `x`/`y` fields matter. -/
structure WaypointXY where
  x : Option ℚ
  y : Option ℚ
deriving DecidableEq, Inhabited

/-- `_has_euclidean_xy` (api/solver_routes.py lines 54-67): false for a
missing or empty list, else true when at least `max(1, n // 2)` waypoints
carry both numeric coordinates. -/
def _has_euclidean_xy (waypoints : Option (List WaypointXY)) : Bool :=
  match waypoints with
  | none => false
  | some [] => false
  | some l => decide (l.countP (fun w => w.x.isSome && w.y.isSome) ≥ max 1 (l.length / 2))

/-- The coordinate-extraction loop of `_build_euclidean_matrix_from_waypoints`
(api/solver_routes.py lines 87-93): raises at the first waypoint missing
`x` or `y`. -/
def euclidCoords : List WaypointXY → Except String (List (ℚ × ℚ))
  | [] => .ok []
  | w :: rest =>
    match w.x, w.y with
    | some x, some y => (euclidCoords rest).map (fun cs => (x, y) :: cs)
    | _, _ => .error "Waypoint missing x/y for EUC_2D matrix build"

/-- `_euclid` (api/solver_routes.py lines 70-73): `math.hypot` of the
coordinate differences. -/
noncomputable def _euclid (a b : ℚ × ℚ) : ℝ :=
  Real.sqrt (((a.1 : ℝ) - (b.1 : ℝ)) ^ 2 + ((a.2 : ℝ) - (b.2 : ℝ)) ^ 2)

/-- Python 3 `round()` over the reals (half to even), for `int(round(x))`. -/
noncomputable def pyRoundR (x : ℝ) : ℤ :=
  if x - ⌊x⌋ < 1/2 then ⌊x⌋
  else if 1/2 < x - ⌊x⌋ then ⌊x⌋ + 1
  else if ⌊x⌋ % 2 = 0 then ⌊x⌋ else ⌊x⌋ + 1

/-- The auto-built EUC_2D matrix: float distances, integer durations. -/
structure EucMatrix where
  distances : List (List ℝ)
  durations : List (List ℤ)

/-- The distance fill of `_build_euclidean_matrix_from_waypoints`
(api/solver_routes.py lines 95-101): the net effect of the symmetric
upper-triangle loop — zero on the diagonal, `_euclid` of the pair with the
lower index first elsewhere (the loop computes each off-diagonal value once
and assigns it to both mirror cells). -/
noncomputable def buildDistances (coords : List (ℚ × ℚ)) : List (List ℝ) :=
  (List.range coords.length).map (fun i => (List.range coords.length).map (fun j =>
    if i = j then 0
    else if i < j then _euclid (coords.getD i (0, 0)) (coords.getD j (0, 0))
    else _euclid (coords.getD j (0, 0)) (coords.getD i (0, 0))))

/-- `_guess_euclidean_duration_scale` (api/solver_routes.py lines 113-140):
widths `max(0, end - start)` of the well-formed provided windows; 60 when the
maximum width reaches 20000, else 1.  On the typed integer inputs the
defensive `None`/`isinf`/exception branches cannot fire and are omitted. -/
def _guess_euclidean_duration_scale (ntw : Option (List (Option (List ℤ)))) : ℚ :=
  let widths := (ntw.getD []).filterMap (fun tw => match tw with
    | some l => if l.length = 2 then some (max 0 (l.getD 1 0 - l.getD 0 0)) else none
    | none => none)
  let max_width : ℤ := match widths with
    | [] => 0
    | w :: rest => rest.foldl max w
  if max_width ≥ 20000 then 60 else 1

/-- `_build_euclidean_matrix_from_waypoints` (api/solver_routes.py lines
76-110): extract coordinates (raising on a missing one), fill distances,
scale and round durations; a `None` scale defaults to 60. -/
noncomputable def _build_euclidean_matrix_from_waypoints (waypoints : List WaypointXY)
    (duration_scale : Option ℚ) : Except String EucMatrix :=
  (euclidCoords waypoints).map (fun coords =>
    let distances := buildDistances coords
    let scale := duration_scale.getD 60
    { distances := distances,
      durations := distances.map (List.map (fun d => pyRoundR (d * (scale : ℝ)))) })

/-- The EUC_2D auto-matrix step of the dispatcher (api/solver_routes.py lines
236-247): when no matrix came with the request and the waypoints look planar,
build the Euclidean matrix with the guessed duration scale; otherwise no
auto-build happens. -/
noncomputable def solveAutoEucMatrix (matrixProvided : Bool)
    (waypoints : Option (List WaypointXY)) (ntw : Option (List (Option (List ℤ)))) :
    Except String (Option EucMatrix) :=
  if matrixProvided = false ∧ _has_euclidean_xy waypoints = true then
    (_build_euclidean_matrix_from_waypoints (waypoints.getD [])
      (some (_guess_euclidean_duration_scale ntw))).map some
  else .ok none

/-- When every waypoint carries both coordinates, extraction succeeds and
yields the coordinate pairs in order. -/
theorem euclidCoords_ok : ∀ (ws : List WaypointXY),
    (∀ w ∈ ws, w.x.isSome = true ∧ w.y.isSome = true) →
    euclidCoords ws = .ok (ws.map (fun w => (w.x.getD 0, w.y.getD 0))) := by
  intro ws
  induction ws with
  | nil => intro _; rfl
  | cons w rest ih =>
    intro hxy
    obtain ⟨hx, hy⟩ := hxy w (List.mem_cons_self w rest)
    obtain ⟨a, ha⟩ := Option.isSome_iff_exists.mp hx
    obtain ⟨b, hb⟩ := Option.isSome_iff_exists.mp hy
    have hrest := ih (fun w2 h2 => hxy w2 (List.mem_cons_of_mem w h2))
    simp only [euclidCoords, ha, hb, hrest, List.map_cons, Except.map]
    simp [ha, hb]

/-- A non-empty list of fully-coordinated waypoints passes
`_has_euclidean_xy`. -/
theorem has_euclidean_xy_of_all (ws : List WaypointXY) (hne : ws ≠ [])
    (hxy : ∀ w ∈ ws, w.x.isSome = true ∧ w.y.isSome = true) :
    _has_euclidean_xy (some ws) = true := by
  cases ws with
  | nil => exact absurd rfl hne
  | cons w rest =>
    have hcount : (w :: rest).countP (fun w2 => w2.x.isSome && w2.y.isSome)
        = (w :: rest).length := by
      apply List.countP_eq_length.mpr
      intro w2 h2
      obtain ⟨hx, hy⟩ := hxy w2 h2
      simp [hx, hy]
    simp only [_has_euclidean_xy, hcount, decide_eq_true_eq]
    have h1 : 1 ≤ (w :: rest).length := by simp
    have h2 : (w :: rest).length / 2 ≤ (w :: rest).length := Nat.div_le_self _ _
    exact max_le h1 h2

/-- Length of the auto-built distance table. -/
theorem buildDistances_length (coords : List (ℚ × ℚ)) :
    (buildDistances coords).length = coords.length := by
  simp [buildDistances]

/-- Row length of the auto-built distance table. -/
theorem buildDistances_row_length (coords : List (ℚ × ℚ)) (i : ℕ)
    (h : i < coords.length) : ((buildDistances coords).getD i []).length = coords.length := by
  unfold buildDistances
  rw [getD_range_map _ _ i h []]
  simp

/-- Every entry of the auto-built distance table is the Euclidean distance of
its coordinate pair (diagonal entries are its zero special case). -/
theorem buildDistances_entry (coords : List (ℚ × ℚ)) (i j : ℕ)
    (hi : i < coords.length) (hj : j < coords.length) :
    ((buildDistances coords).getD i []).getD j 0
      = Real.sqrt ((((coords.getD i (0, 0)).1 : ℝ) - ((coords.getD j (0, 0)).1 : ℝ)) ^ 2
          + (((coords.getD i (0, 0)).2 : ℝ) - ((coords.getD j (0, 0)).2 : ℝ)) ^ 2) := by
  unfold buildDistances
  rw [getD_range_map _ _ i hi [], getD_range_map _ _ j hj 0]
  rcases lt_trichotomy i j with h | h | h
  · rw [if_neg (Nat.ne_of_lt h), if_pos h]
    rfl
  · subst h
    rw [if_pos rfl]
    simp [sub_self]
  · rw [if_neg (ne_of_gt h), if_neg (not_lt.mpr (le_of_lt h))]
    unfold _euclid
    congr 1
    ring

/-- Reaching a bound through a left fold of `max` means the seed or some
element reaches it. -/
theorem foldl_max_ge_iff : ∀ (l : List ℤ) (a c : ℤ),
    c ≤ l.foldl max a ↔ c ≤ a ∨ ∃ w ∈ l, c ≤ w := by
  intro l
  induction l with
  | nil => intro a c; simp
  | cons x xs ih =>
    intro a c
    rw [List.foldl_cons, ih (max a x) c, le_max_iff]
    constructor
    · rintro (( h | h) | ⟨w, hw, hcw⟩)
      · exact Or.inl h
      · exact Or.inr ⟨x, List.mem_cons_self x xs, h⟩
      · exact Or.inr ⟨w, List.mem_cons_of_mem x hw, hcw⟩
    · rintro (h | ⟨w, hw, hcw⟩)
      · exact Or.inl (Or.inl h)
      · rcases List.mem_cons.mp hw with rfl | hw2
        · exact Or.inl (Or.inr hcw)
        · exact Or.inr ⟨w, hw2, hcw⟩

/-- The guessed duration scale is 60 exactly when some well-formed provided
window spans at least 20000; it is 1 otherwise. -/
theorem guess_scale_spec (ntw : Option (List (Option (List ℤ)))) :
    (_guess_euclidean_duration_scale ntw = 60
      ↔ ∃ tw ∈ ntw.getD [], ∃ l, tw = some l ∧ l.length = 2
          ∧ 20000 ≤ l.getD 1 0 - l.getD 0 0)
    ∧ (_guess_euclidean_duration_scale ntw = 60 ∨ _guess_euclidean_duration_scale ntw = 1) := by
  have hwf : ∀ w, w ∈ (ntw.getD []).filterMap (fun tw => match tw with
      | some l => if l.length = 2 then some (max 0 (l.getD 1 0 - l.getD 0 0)) else none
      | none => none) ↔ ∃ tw ∈ ntw.getD [], ∃ l, tw = some l ∧ l.length = 2
        ∧ w = max 0 (l.getD 1 0 - l.getD 0 0) := by
    intro w
    rw [List.mem_filterMap]
    constructor
    · rintro ⟨tw, htw, hf⟩
      match tw with
      | none => exact absurd hf (by simp)
      | some l =>
        dsimp only at hf
        by_cases hl : l.length = 2
        · rw [if_pos hl] at hf
          exact ⟨some l, htw, l, rfl, hl, (Option.some_inj.mp hf).symm⟩
        · rw [if_neg hl] at hf
          exact absurd hf (by simp)
    · rintro ⟨tw, htw, l, rfl, hl, hw⟩
      refine ⟨some l, htw, ?_⟩
      dsimp only
      rw [if_pos hl, hw]
  have hmax : (20000 : ℤ) ≤ (match (ntw.getD []).filterMap (fun tw => match tw with
        | some l => if l.length = 2 then some (max 0 (l.getD 1 0 - l.getD 0 0)) else none
        | none => none) with
      | [] => (0 : ℤ)
      | w :: rest => rest.foldl max w)
      ↔ ∃ tw ∈ ntw.getD [], ∃ l, tw = some l ∧ l.length = 2
          ∧ 20000 ≤ l.getD 1 0 - l.getD 0 0 := by
    cases hws : (ntw.getD []).filterMap (fun tw => match tw with
        | some l => if l.length = 2 then some (max 0 (l.getD 1 0 - l.getD 0 0)) else none
        | none => none) with
    | nil =>
      simp only []
      constructor
      · intro h; exact absurd h (by norm_num)
      · rintro ⟨tw, htw, l, rfl, hl, hge⟩
        have : max 0 (l.getD 1 0 - l.getD 0 0) ∈ ([] : List ℤ) := by
          rw [← hws, hwf]
          exact ⟨some l, htw, l, rfl, hl, rfl⟩
        exact absurd this (List.not_mem_nil _)
    | cons w0 rest =>
      simp only []
      rw [foldl_max_ge_iff rest w0 20000]
      constructor
      · rintro (h | ⟨w, hw, hcw⟩)
        · have hmem : w0 ∈ w0 :: rest := List.mem_cons_self w0 rest
          rw [← hws, hwf] at hmem
          obtain ⟨tw, htw, l, rfl, hl, hweq⟩ := hmem
          refine ⟨some l, htw, l, rfl, hl, ?_⟩
          rw [hweq] at h
          omega
        · have hmem : w ∈ w0 :: rest := List.mem_cons_of_mem w0 hw
          rw [← hws, hwf] at hmem
          obtain ⟨tw, htw, l, rfl, hl, hweq⟩ := hmem
          refine ⟨some l, htw, l, rfl, hl, ?_⟩
          rw [hweq] at hcw
          omega
      · rintro ⟨tw, htw, l, rfl, hl, hge⟩
        have hmem : max 0 (l.getD 1 0 - l.getD 0 0) ∈ w0 :: rest := by
          rw [← hws, hwf]
          exact ⟨some l, htw, l, rfl, hl, rfl⟩
        rcases List.mem_cons.mp hmem with heq | hmem2
        · exact Or.inl (by rw [← heq]; omega)
        · exact Or.inr ⟨_, hmem2, by omega⟩
  constructor
  · unfold _guess_euclidean_duration_scale
    by_cases hcond : (20000 : ℤ) ≤ (match (ntw.getD []).filterMap (fun tw => match tw with
        | some l => if l.length = 2 then some (max 0 (l.getD 1 0 - l.getD 0 0)) else none
        | none => none) with
      | [] => (0 : ℤ)
      | w :: rest => rest.foldl max w)
    · rw [if_pos hcond]
      simp only [true_iff]
      exact hmax.mp hcond
    · rw [if_neg hcond]
      constructor
      · intro h; exact absurd h (by norm_num)
      · intro h; exact absurd (hmax.mpr h) hcond
  · unfold _guess_euclidean_duration_scale
    by_cases hcond : (20000 : ℤ) ≤ (match (ntw.getD []).filterMap (fun tw => match tw with
        | some l => if l.length = 2 then some (max 0 (l.getD 1 0 - l.getD 0 0)) else none
        | none => none) with
      | [] => (0 : ℤ)
      | w :: rest => rest.foldl max w)
    · rw [if_pos hcond]; exact Or.inl rfl
    · rw [if_neg hcond]; exact Or.inr rfl

/-- C6: when a solve request provides no matrix and its waypoints all carry
planar coordinates, the dispatcher auto-builds a square matrix whose
`distances[i][j]` is the Euclidean distance between waypoints i and j and
whose `durations[i][j]` is `round(distances[i][j] * scale)`, where the scale
is 60 exactly when some provided well-formed time window spans at least 20000
(suggesting seconds) and 1 otherwise (suggesting minutes). -/
theorem euclidean_automatrix_spec (ws : List WaypointXY)
    (ntw : Option (List (Option (List ℤ)))) (hne : ws ≠ [])
    (hxy : ∀ w ∈ ws, w.x.isSome = true ∧ w.y.isSome = true) :
    ∃ M, solveAutoEucMatrix false (some ws) ntw = .ok (some M)
    ∧ M.distances.length = ws.length
    ∧ (∀ i j, i < ws.length → j < ws.length →
        (M.distances.getD i []).getD j 0
          = Real.sqrt ((((ws.getD i default).x.getD 0 : ℝ) - ((ws.getD j default).x.getD 0 : ℝ)) ^ 2
              + (((ws.getD i default).y.getD 0 : ℝ) - ((ws.getD j default).y.getD 0 : ℝ)) ^ 2))
    ∧ (∀ i j, i < ws.length → j < ws.length →
        (M.durations.getD i []).getD j 0
          = pyRoundR ((M.distances.getD i []).getD j 0
              * ((_guess_euclidean_duration_scale ntw : ℚ) : ℝ)))
    ∧ (_guess_euclidean_duration_scale ntw = 60
        ↔ ∃ tw ∈ ntw.getD [], ∃ l, tw = some l ∧ l.length = 2
            ∧ 20000 ≤ l.getD 1 0 - l.getD 0 0)
    ∧ (_guess_euclidean_duration_scale ntw = 60 ∨ _guess_euclidean_duration_scale ntw = 1) := by
  have hcoords := euclidCoords_ok ws hxy
  have hhas := has_euclidean_xy_of_all ws hne hxy
  have hn : (ws.map (fun w => (w.x.getD (0 : ℚ), w.y.getD (0 : ℚ)))).length = ws.length := by
    simp
  have hbuild : solveAutoEucMatrix false (some ws) ntw = .ok (some
      { distances := buildDistances (ws.map (fun w => (w.x.getD 0, w.y.getD 0))),
        durations := (buildDistances (ws.map (fun w => (w.x.getD 0, w.y.getD 0)))).map
          (List.map (fun d =>
            pyRoundR (d * ((_guess_euclidean_duration_scale ntw : ℚ) : ℝ)))) }) := by
    unfold solveAutoEucMatrix
    rw [if_pos ⟨rfl, hhas⟩]
    unfold _build_euclidean_matrix_from_waypoints
    rw [show (some ws).getD [] = ws from rfl, hcoords]
    rfl
  refine ⟨_, hbuild, ?_, ?_, ?_, (guess_scale_spec ntw).1, (guess_scale_spec ntw).2⟩
  · show (buildDistances _).length = ws.length
    rw [buildDistances_length]
    exact hn
  · intro i j hi hj
    have hi2 : i < (ws.map (fun w => (w.x.getD (0 : ℚ), w.y.getD (0 : ℚ)))).length :=
      hn ▸ hi
    have hj2 : j < (ws.map (fun w => (w.x.getD (0 : ℚ), w.y.getD (0 : ℚ)))).length :=
      hn ▸ hj
    show ((buildDistances _).getD i []).getD j 0 = _
    rw [buildDistances_entry _ i j hi2 hj2]
    rw [getD_map_lt (fun w => (w.x.getD (0 : ℚ), w.y.getD (0 : ℚ))) ws i hi default (0, 0)]
    rw [getD_map_lt (fun w => (w.x.getD (0 : ℚ), w.y.getD (0 : ℚ))) ws j hj default (0, 0)]
  · intro i j hi hj
    have hi2 : i < (ws.map (fun w => (w.x.getD (0 : ℚ), w.y.getD (0 : ℚ)))).length :=
      hn ▸ hi
    have hj2 : j < (ws.map (fun w => (w.x.getD (0 : ℚ), w.y.getD (0 : ℚ)))).length :=
      hn ▸ hj
    have hib : i < (buildDistances (ws.map (fun w => (w.x.getD (0 : ℚ), w.y.getD (0 : ℚ))))).length := by
      rw [buildDistances_length]
      exact hi2
    have hjb : j < ((buildDistances (ws.map (fun w => (w.x.getD (0 : ℚ), w.y.getD (0 : ℚ))))).getD i []).length := by
      rw [buildDistances_row_length _ i hi2]
      exact hj2
    have h1 : ((buildDistances (ws.map (fun w => (w.x.getD (0 : ℚ), w.y.getD (0 : ℚ))))).map
          (List.map (fun d =>
            pyRoundR (d * ((_guess_euclidean_duration_scale ntw : ℚ) : ℝ))))).getD i []
        = List.map (fun d => pyRoundR (d * ((_guess_euclidean_duration_scale ntw : ℚ) : ℝ)))
            ((buildDistances (ws.map (fun w => (w.x.getD (0 : ℚ), w.y.getD (0 : ℚ))))).getD i []) :=
      getD_map_lt _ _ i hib [] []
    have h2 : (List.map (fun d => pyRoundR (d * ((_guess_euclidean_duration_scale ntw : ℚ) : ℝ)))
          ((buildDistances (ws.map (fun w => (w.x.getD (0 : ℚ), w.y.getD (0 : ℚ))))).getD i [])).getD j 0
        = pyRoundR (((buildDistances (ws.map (fun w =>
            (w.x.getD (0 : ℚ), w.y.getD (0 : ℚ))))).getD i []).getD j 0
            * ((_guess_euclidean_duration_scale ntw : ℚ) : ℝ)) :=
      getD_map_lt _ _ j hjb 0 0
    dsimp only
    rw [h1, h2]

/-- Witness for `euclidean_automatrix_spec`: two waypoints at (0,0) and
(3,4), no time windows provided. -/
theorem euclidean_automatrix_spec_witness :
    ([(⟨some 0, some 0⟩ : WaypointXY), ⟨some 3, some 4⟩] ≠ [])
    ∧ (∀ w ∈ [(⟨some 0, some 0⟩ : WaypointXY), ⟨some 3, some 4⟩],
        w.x.isSome = true ∧ w.y.isSome = true)
    ∧ (∃ M, solveAutoEucMatrix false
          (some [(⟨some 0, some 0⟩ : WaypointXY), ⟨some 3, some 4⟩]) none = .ok (some M)
      ∧ M.distances.length = [(⟨some 0, some 0⟩ : WaypointXY), ⟨some 3, some 4⟩].length
      ∧ (∀ i j, i < [(⟨some 0, some 0⟩ : WaypointXY), ⟨some 3, some 4⟩].length →
          j < [(⟨some 0, some 0⟩ : WaypointXY), ⟨some 3, some 4⟩].length →
          (M.distances.getD i []).getD j 0
            = Real.sqrt (((([(⟨some 0, some 0⟩ : WaypointXY), ⟨some 3, some 4⟩].getD i default).x.getD 0 : ℝ)
                  - (([(⟨some 0, some 0⟩ : WaypointXY), ⟨some 3, some 4⟩].getD j default).x.getD 0 : ℝ)) ^ 2
                + ((([(⟨some 0, some 0⟩ : WaypointXY), ⟨some 3, some 4⟩].getD i default).y.getD 0 : ℝ)
                  - (([(⟨some 0, some 0⟩ : WaypointXY), ⟨some 3, some 4⟩].getD j default).y.getD 0 : ℝ)) ^ 2))
      ∧ (∀ i j, i < [(⟨some 0, some 0⟩ : WaypointXY), ⟨some 3, some 4⟩].length →
          j < [(⟨some 0, some 0⟩ : WaypointXY), ⟨some 3, some 4⟩].length →
          (M.durations.getD i []).getD j 0
            = pyRoundR ((M.distances.getD i []).getD j 0
                * ((_guess_euclidean_duration_scale none : ℚ) : ℝ)))
      ∧ (_guess_euclidean_duration_scale none = 60
          ↔ ∃ tw ∈ (none : Option (List (Option (List ℤ)))).getD [], ∃ l, tw = some l
              ∧ l.length = 2 ∧ 20000 ≤ l.getD 1 0 - l.getD 0 0)
      ∧ (_guess_euclidean_duration_scale none = 60
          ∨ _guess_euclidean_duration_scale none = 1)) :=
  ⟨by decide, by decide,
   euclidean_automatrix_spec [⟨some 0, some 0⟩, ⟨some 3, some 4⟩] none
     (by decide) (by decide)⟩
